import Mathlib

/-!
Shallow embedding of the CoreWorker facade from src/ray/core_worker/core_worker.cc.
Pure control flow of the facade is translated directly from the source.  External
collaborators whose implementations live outside this repository (the in-process
memory store, the plasma store provider, the task manager, the submitters and the
raylet client) are modelled by explicit parameters and event traces; where their
behaviour decides a claim, the model follows the specification and the definition
says so in its doc comment.
-/

/-- Transport tag carried inside an ObjectID (TaskTransportType in the source). -/
inductive Transport
  | direct
  | raylet
  deriving DecidableEq, Repr

/-- Structured object identifier: the transport-type tag, the producing task and an
index within that task.  These are the ObjectID fields core_worker.cc reads. -/
structure ObjectID where
  transport : Transport
  taskId : Nat
  index : Nat
  deriving DecidableEq, Repr

/-- ObjectID::IsDirectCallType from the source: the transport tag equals DIRECT. -/
def ObjectID.IsDirectCallType (i : ObjectID) : Bool :=
  match i.transport with
  | Transport.direct => true
  | Transport.raylet => false

/-- ObjectID::ForPut from the source: the id of the putIndex-th Put performed under
the given task, carrying the given transport tag. -/
def ObjectID.ForPut (taskId : Nat) (putIndex : Nat) (transport : Transport) : ObjectID :=
  ⟨transport, taskId, putIndex⟩

/-- Modelled from the spec: RayObject (its implementation is outside src/).  A
RayObject is a plain value, the OBJECT_IN_PLASMA sentinel, or an error marker of
some error kind.  Per section 7 of the spec, OBJECT_IN_PLASMA is control, not an
error, and the error-kind markers are the ones surfaced as exceptions. -/
inductive RayObj
  | value (data : Nat)
  | inPlasmaMarker
  | errorMarker (kind : Nat)
  deriving DecidableEq, Repr

/-- RayObject::IsInPlasmaError: the object is the OBJECT_IN_PLASMA sentinel. -/
def RayObj.IsInPlasmaError : RayObj → Bool
  | RayObj.inPlasmaMarker => true
  | _ => false

/-- RayObject::IsException, modelled from the spec: true exactly on the error-kind
markers (OBJECT_IN_PLASMA is control, not an error). -/
def RayObj.IsException : RayObj → Bool
  | RayObj.errorMarker _ => true
  | _ => false

/-- Return status of facade operations: the subset of ray::Status that
core_worker.cc constructs.  A default-constructed Status is ok. -/
inductive Status
  | ok
  | invalid (msg : String)
  | ioError (msg : String)
  deriving DecidableEq, Repr

/-- True on the Status::Invalid variant. -/
def Status.IsInvalidArgument : Status → Bool
  | Status.invalid _ => true
  | _ => false

/-- Message of the IOError produced by SubmitActorTask on a dead actor. -/
def deadActorMsg : String :=
  "sent task to dead actor"

/-- Message of the Invalid status produced by Wait when num_objects is out of range. -/
def waitRangeMsg : String :=
  "Number of objects to wait for must be between 1 and the number of ids."

/-- Message of the Invalid status produced by Wait on duplicate ids. -/
def waitDuplicateMsg : String :=
  "Duplicate object IDs not supported in wait."

/-- Contents of a store (memory or plasma), as observed during one facade call. -/
abbrev Store := ObjectID → Option RayObj

/-- First component of GroupObjectIdsByStoreProvider: the RAYLET-tagged ids,
collected into a set (modelled as a duplicate-free list). -/
def plasmaGroup (ids : List ObjectID) : List ObjectID :=
  (ids.filter fun i => !i.IsDirectCallType).dedup

/-- Second component of GroupObjectIdsByStoreProvider: the DIRECT-tagged ids,
collected into a set (modelled as a duplicate-free list). -/
def memoryGroup (ids : List ObjectID) : List ObjectID :=
  (ids.filter fun i => i.IsDirectCallType).dedup

/-- GroupObjectIdsByStoreProvider from core_worker.cc: partitions the input ids by
transport tag into the plasma set and the memory set (in that argument order). -/
def GroupObjectIdsByStoreProvider (ids : List ObjectID) : List ObjectID × List ObjectID :=
  (plasmaGroup ids, memoryGroup ids)

/-- True when the memory store holds the OBJECT_IN_PLASMA sentinel for this id;
this is what the memory-store probe inside RetryObjectInPlasmaErrors observes. -/
def memHasPlasmaMarker (mem : Store) (i : ObjectID) : Bool :=
  match mem i with
  | some v => v.IsInPlasmaError
  | none => false

/-- True when the memory store holds an error-kind marker for this id. -/
def memExceptionAt (mem : Store) (i : ObjectID) : Bool :=
  match mem i with
  | some v => v.IsException
  | none => false

/-- Modelled from the spec: the got-exception flag reported by MemoryStore::Get
(implementation outside src/).  It is set when some fetched value is an
error-kind marker, which downstream Get surfaces as an exception. -/
def gotMemException (mem : Store) (memIds : List ObjectID) : Bool :=
  memIds.any fun i => memExceptionAt mem i

/-- True when an assembled Get result carries an error-kind marker. -/
def resultIsException : Option RayObj → Bool
  | some v => v.IsException
  | none => false

/-- The memory-store results of a Get call, as a lookup: ids in the memory group
that are present in the memory store map to their value.  Modelled from the
spec: MemoryStore::Get returns the present subset of the queried ids. -/
def getMemFound (mem : Store) (ids : List ObjectID) : ObjectID → Option RayObj :=
  fun i => if i ∈ memoryGroup ids then mem i else none

/-- The candidate set handed to the plasma store by Get when no exception was
fetched: the RAYLET group plus every memory id holding the OBJECT_IN_PLASMA
sentinel. -/
def getPlasmaSet (mem : Store) (ids : List ObjectID) : List ObjectID :=
  plasmaGroup ids ++ (memoryGroup ids).filter fun i => memHasPlasmaMarker mem i

/-- The merged result map of a Get call that consulted plasma: plasma results for
plasma-queried ids take precedence over the memory results. -/
def getResultFun (mem plasma : Store) (ids : List ObjectID) : ObjectID → Option RayObj :=
  fun i =>
    if i ∈ getPlasmaSet mem ids ∧ (plasma i).isSome then plasma i
    else getMemFound mem ids i

/-- RAY_CHECK conditions evaluated while assembling Get results: no assembled
result may still carry the OBJECT_IN_PLASMA sentinel, and with a negative
timeout and no pending exception no result may be missing. -/
def getAssemblyAsserts (results : List (Option RayObj)) (timeoutMs : Int) : Bool :=
  let willThrow := results.any resultIsException
  let missing := results.any Option.isNone
  let inPlasmaOk := results.all fun r => !(decide (r = some RayObj.inPlasmaMarker))
  inPlasmaOk && !(decide (timeoutMs < 0) && !willThrow && missing)

/-- Observable outcome of one CoreWorker::Get call: which ids were queried at each
store, whether the plasma store was consulted at all, the assembled results (one
entry per input id, in input order), the assembly RAY_CHECK outcome and the
returned status. -/
structure GetOutcome where
  memQueried : List ObjectID
  plasmaQueried : List ObjectID
  plasmaConsulted : Bool
  results : List (Option RayObj)
  assertionsOk : Bool
  status : Status
  deriving DecidableEq, Repr

/-- Candidate and ready sets threaded through CoreWorker::Wait. -/
structure WaitSets where
  memIds : List ObjectID
  plasmaIds : List ObjectID
  ready : List ObjectID
  deriving DecidableEq, Repr

/-- Modelled from the spec: the Wait overloads of MemoryStore and
PlasmaStoreProvider (implementations outside src/).  The store inserts into the
ready set at most k of the candidate ids that are present, and presence is taken
as constant across the call; the model deterministically reports the first k
present candidates in candidate order. -/
def storeWait (present : ObjectID → Bool) (cands : List ObjectID) (k : Nat)
    (ready : List ObjectID) : List ObjectID :=
  ready ++ (cands.filter fun i => present i && !(decide (i ∈ ready))).take k

/-- RetryObjectInPlasmaErrors from core_worker.cc: every memory candidate that is
in the ready set but whose stored value is the OBJECT_IN_PLASMA sentinel is
removed from the memory candidates and from the ready set and appended to the
plasma candidates. -/
def RetryObjectInPlasmaErrors (mem : Store) (s : WaitSets) : WaitSets :=
  let recl := s.memIds.filter fun i => decide (i ∈ s.ready) && memHasPlasmaMarker mem i
  { memIds := s.memIds.filter fun i => !(decide (i ∈ recl))
    plasmaIds := s.plasmaIds ++ recl
    ready := s.ready.filter fun i => !(decide (i ∈ recl)) }

namespace CoreWorker

/-- The memory-store Wait issued by one pass of CoreWorker::Wait: the number of
objects requested is min(memory candidate count, num_objects). -/
def memWaitReady (mem : Store) (n : Nat) (s : WaitSets) : List ObjectID :=
  storeWait (fun i => (mem i).isSome) s.memIds (min s.memIds.length n) s.ready

/-- Memory half of one pass of CoreWorker::Wait: if there are memory candidates,
wait on the memory store and then reclassify OBJECT_IN_PLASMA results via
RetryObjectInPlasmaErrors; otherwise leave the sets unchanged. -/
def waitPassMemPhase (mem : Store) (n : Nat) (s : WaitSets) : WaitSets :=
  if s.memIds.isEmpty then s
  else RetryObjectInPlasmaErrors mem { s with ready := memWaitReady mem n s }

/-- Result of one pass of CoreWorker::Wait: the final sets, whether the memory
store was consulted, and the candidate list handed to the plasma store (empty if
the plasma store was not consulted in this pass). -/
structure WaitPassResult where
  sets : WaitSets
  memCalled : Bool
  plasmaQueried : List ObjectID
  deriving DecidableEq, Repr

/-- One pass of CoreWorker::Wait: memory phase (wait plus reclassification), then,
if still short of num_objects and plasma candidates exist, a plasma wait
requesting min(plasma candidate count, num_objects minus ready count). -/
def waitPass (mem : Store) (plasmaHas : ObjectID → Bool) (n : Nat) (s : WaitSets) :
    WaitPassResult :=
  let s1 := waitPassMemPhase mem n s
  if s1.ready.length < n ∧ s1.plasmaIds ≠ [] then
    { sets := { s1 with
        ready := storeWait plasmaHas s1.plasmaIds
          (min s1.plasmaIds.length (n - s1.ready.length)) s1.ready }
      memCalled := !s.memIds.isEmpty
      plasmaQueried := s1.plasmaIds }
  else
    { sets := s1, memCalled := !s.memIds.isEmpty, plasmaQueried := [] }

/-- Observable outcome of one CoreWorker::Wait call. -/
structure WaitOutcome where
  status : Status
  results : List Bool
  storeConsulted : Bool
  deriving DecidableEq, Repr

/-- CoreWorker::Wait from core_worker.cc: range check on num_objects, grouping by
transport tag, duplicate check by comparing set sizes with the input length,
pass A with zero timeout, and, if the timeout is nonzero and pass A fell short,
a pass B that first clears the ready set.  Store presence is taken as constant
across the call (see storeWait). -/
def Wait (mem : Store) (plasmaHas : ObjectID → Bool) (ids : List ObjectID)
    (numObjects : Int) (timeoutMs : Int) : WaitOutcome :=
  if numObjects ≤ 0 ∨ numObjects > (ids.length : Int) then
    { status := Status.invalid waitRangeMsg
      results := ids.map fun _ => false
      storeConsulted := false }
  else
    let plasmaIds := plasmaGroup ids
    let memIds := memoryGroup ids
    if plasmaIds.length + memIds.length ≠ ids.length then
      { status := Status.invalid waitDuplicateMsg
        results := ids.map fun _ => false
        storeConsulted := false }
    else
      let n := numObjects.toNat
      let pA := waitPass mem plasmaHas n ⟨memIds, plasmaIds, []⟩
      let consultedA := pA.memCalled || !pA.plasmaQueried.isEmpty
      if timeoutMs ≠ 0 ∧ pA.sets.ready.length < n then
        let pB := waitPass mem plasmaHas n ⟨pA.sets.memIds, pA.sets.plasmaIds, []⟩
        { status := Status.ok
          results := ids.map fun i => decide (i ∈ pB.sets.ready)
          storeConsulted := consultedA || pB.memCalled || !pB.plasmaQueried.isEmpty }
      else
        { status := Status.ok
          results := ids.map fun i => decide (i ∈ pA.sets.ready)
          storeConsulted := consultedA }

/-- CoreWorker::Get from core_worker.cc: group ids by transport tag, fetch the
DIRECT set from the memory store, and, only when no exception was fetched, query
the plasma store on the RAYLET set plus every memory result carrying the
OBJECT_IN_PLASMA sentinel, plasma results taking precedence; finally assemble
one result per input id in input order.  The memory-store Get is modelled from
the spec as returning the present subset of the queried ids together with the
got-exception flag (see gotMemException). -/
def Get (mem plasma : Store) (ids : List ObjectID) (timeoutMs : Int) : GetOutcome :=
  if gotMemException mem (memoryGroup ids) then
    { memQueried := memoryGroup ids
      plasmaQueried := []
      plasmaConsulted := false
      results := ids.map (getMemFound mem ids)
      assertionsOk := getAssemblyAsserts (ids.map (getMemFound mem ids)) timeoutMs
      status := Status.ok }
  else
    { memQueried := memoryGroup ids
      plasmaQueried := getPlasmaSet mem ids
      plasmaConsulted := true
      results := ids.map (getResultFun mem plasma ids)
      assertionsOk := getAssemblyAsserts (ids.map (getResultFun mem plasma ids)) timeoutMs
      status := Status.ok }

end CoreWorker

/-- Availability of the object behind an id during a Wait call: a RAYLET id is
available when plasma has it; a DIRECT id is available when the memory store
holds a real value for it, or holds the OBJECT_IN_PLASMA sentinel and plasma has
the promoted copy. -/
def objAvailable (mem : Store) (plasmaHas : ObjectID → Bool) (i : ObjectID) : Bool :=
  if i.IsDirectCallType then
    match mem i with
    | some v => if v.IsInPlasmaError then plasmaHas i else true
    | none => false
  else plasmaHas i

/-- Number of harvestable candidates in a Wait state: memory candidates present in
the memory store plus plasma candidates present in plasma. -/
def availCount (mem : Store) (plasmaHas : ObjectID → Bool) (s : WaitSets) : Nat :=
  (s.memIds.filter fun i => (mem i).isSome).length
    + (s.plasmaIds.filter plasmaHas).length

/-- Side effects recorded by the id-allocating CoreWorker::Put overload, in
program order. -/
inductive PutEvent
  | addOwnedObject (id : ObjectID) (ownerTaskId : Nat)
  | plasmaPut (id : ObjectID)
  | pinObjectIds (id : ObjectID)
  deriving DecidableEq, Repr

/-- Outcome of the id-allocating CoreWorker::Put overload. -/
structure PutOutcome where
  objectId : ObjectID
  events : List PutEvent
  returned : Status
  deriving DecidableEq, Repr

/-- Subset of rpc::ErrorType used by the claims. -/
inductive ErrorType
  | actorDied
  deriving DecidableEq, Repr

/-- The ActorHandle fields core_worker.cc reads on the submit path. -/
structure ActorHandle where
  isDirectCall : Bool
  isDead : Bool
  deriving DecidableEq, Repr

/-- Observable outcome of the tail of CoreWorker::SubmitActorTask: whether
AddPendingTask ran, the PendingTaskFailed invocation if any (error type plus the
status passed by pointer), which submitter received the spec, and the status
returned to the caller. -/
structure SubmitActorTaskOutcome where
  addedPendingTask : Bool
  pendingTaskFailed : Option (ErrorType × Status)
  directSubmitted : Bool
  rayletSubmitted : Bool
  returned : Status
  deriving DecidableEq, Repr

/-- Actor-handle table state of a process: the registered handles keyed by actor
id, the current actor id (none models a Nil ActorID, i.e. a non-actor process)
and the main-thread task id (none models a Nil TaskID). -/
structure HandleTableState where
  actorHandles : List (Nat × ActorHandle)
  currentActorId : Option Nat
  mainThreadTaskId : Option Nat
  deriving DecidableEq, Repr

/-- State touched by CoreWorker::InternalHeartbeat: the queue of (deadline in ms,
task spec) pairs awaiting resubmission, and the absolute expiry of the internal
timer in ms. -/
structure HeartbeatState where
  toResubmit : List (Nat × Nat)
  timerExpiry : Nat
  deriving DecidableEq, Repr

/-- Retry callback installed into the TaskManager by the CoreWorker constructor:
it appends the spec to the resubmit queue with a deadline of the current time
plus 5000 ms. -/
def taskManagerRetryCallback (nowMs : Nat) (spec : Nat) (q : List (Nat × Nat)) :
    List (Nat × Nat) :=
  q ++ [(nowMs + 5000, spec)]

/-- The drain loop of CoreWorker::InternalHeartbeat: while the queue is nonempty
and the current time exceeds the front deadline, submit the front spec to the
DirectTaskSubmitter and pop it.  Returns the submitted specs in order and the
remaining queue. -/
def drainToResubmit (nowMs : Nat) : List (Nat × Nat) → List Nat × List (Nat × Nat)
  | [] => ([], [])
  | (d, s) :: rest =>
    if nowMs > d then
      let r := drainToResubmit nowMs rest
      (s :: r.1, r.2)
    else ([], (d, s) :: rest)

namespace CoreWorker

/-- CoreWorker::InternalHeartbeat: drain the expired front of the resubmit queue,
then reschedule the timer from its previous absolute expiry (not from the
current time) plus the 1000 ms heartbeat interval. -/
def InternalHeartbeat (nowMs : Nat) (st : HeartbeatState) :
    List Nat × HeartbeatState :=
  let r := drainToResubmit nowMs st.toResubmit
  (r.1, ⟨r.2, st.timerExpiry + 1000⟩)

/-- The id-allocating CoreWorker::Put overload: allocate the id via
ObjectID::ForPut(current task, next put index, RAYLET transport), record the
caller as owner in the ReferenceCounter, put the object into plasma, and only if
that put returned ok ask the raylet to pin the id; a failed plasma put returns
its status before any pin request. -/
def Put (currentTaskId nextPutIndex callerId : Nat) (plasmaPutStatus : Status) :
    PutOutcome :=
  let id := ObjectID.ForPut currentTaskId nextPutIndex Transport.raylet
  if plasmaPutStatus = Status.ok then
    { objectId := id
      events := [PutEvent.addOwnedObject id callerId, PutEvent.plasmaPut id,
        PutEvent.pinObjectIds id]
      returned := Status.ok }
  else
    { objectId := id
      events := [PutEvent.addOwnedObject id callerId, PutEvent.plasmaPut id]
      returned := plasmaPutStatus }

/-- Tail of CoreWorker::SubmitActorTask, after the task spec is built.  The outer
local Status is default-constructed (ok); in the dead-actor branch the source
declares a fresh local Status bound to IOError(deadActorMsg) that is passed to
PendingTaskFailed by pointer and shadows the outer one, so the function still
returns the outer ok value.  The submitter status parameter is the status of
DirectActorTaskSubmitter::SubmitTask. -/
def SubmitActorTask (h : ActorHandle) (submitterStatus : Status) :
    SubmitActorTaskOutcome :=
  if h.isDirectCall then
    if h.isDead then
      { addedPendingTask := true
        pendingTaskFailed := some (ErrorType.actorDied, Status.ioError deadActorMsg)
        directSubmitted := false
        rayletSubmitted := false
        returned := Status.ok }
    else
      { addedPendingTask := true
        pendingTaskFailed := none
        directSubmitted := true
        rayletSubmitted := false
        returned := submitterStatus }
  else
    { addedPendingTask := false
      pendingTaskFailed := none
      directSubmitted := false
      rayletSubmitted := true
      returned := Status.ok }

/-- CoreWorker::AddActorHandle: insert the handle if no handle for that actor id
exists; returns the updated table and whether insertion happened. -/
def AddActorHandle (st : HandleTableState) (actorId : Nat) (h : ActorHandle) :
    HandleTableState × Bool :=
  if st.actorHandles.any fun p => decide (p.1 = actorId) then (st, false)
  else ({ st with actorHandles := st.actorHandles ++ [(actorId, h)] }, true)

/-- DEAD branch of the actor notification callback registered by
CoreWorker::AddActorHandle: mark the handle dead but do not erase it (the source
comments that clients can still submit tasks to dead actors). -/
def OnActorDeadNotification (st : HandleTableState) (actorId : Nat) :
    HandleTableState :=
  { st with actorHandles := st.actorHandles.map fun p =>
      if p.1 = actorId then (p.1, { p.2 with isDead := true }) else p }

/-- CoreWorker::SetCurrentTaskId: record the task id; if the process is not an
actor (current actor id Nil) and the new task id is Nil, unsubscribe and clear
the whole actor-handle table (the source comment: clear all actor handles at the
end of each non-actor task). -/
def SetCurrentTaskId (st : HandleTableState) (taskId : Option Nat) :
    HandleTableState :=
  let st1 := { st with mainThreadTaskId := taskId }
  if st1.currentActorId = none ∧ taskId = none then
    { st1 with actorHandles := [] }
  else st1

end CoreWorker

/-- Sample DIRECT-tagged id used by concrete witnesses. -/
def sampleDirectA : ObjectID :=
  ⟨Transport.direct, 0, 1⟩

/-- Second sample DIRECT-tagged id used by concrete witnesses. -/
def sampleDirectB : ObjectID :=
  ⟨Transport.direct, 0, 2⟩

/-- Sample RAYLET-tagged id used by concrete witnesses. -/
def sampleRayletA : ObjectID :=
  ⟨Transport.raylet, 0, 1⟩

/-- Sample memory store: sampleDirectA is an in-plasma sentinel, sampleDirectB is
an error marker. -/
def sampleMem : Store := fun i =>
  if i = sampleDirectA then some RayObj.inPlasmaMarker
  else if i = sampleDirectB then some (RayObj.errorMarker 1)
  else none

/-- Sample memory store without exceptions: sampleDirectA is an in-plasma
sentinel, sampleDirectB is a plain value. -/
def sampleMemOk : Store := fun i =>
  if i = sampleDirectA then some RayObj.inPlasmaMarker
  else if i = sampleDirectB then some (RayObj.value 3)
  else none

/-- Sample plasma store holding sampleRayletA and the promoted sampleDirectA. -/
def samplePlasma : Store := fun i =>
  if i = sampleRayletA then some (RayObj.value 7)
  else if i = sampleDirectA then some (RayObj.value 9)
  else none

/-- Sample plasma presence predicate matching samplePlasma. -/
def samplePlasmaHas : ObjectID → Bool := fun i =>
  (samplePlasma i).isSome

/-- Sample actor handle used by concrete witnesses. -/
def sampleHandle : ActorHandle :=
  ⟨true, false⟩

/-- Sample handle table of a non-actor process holding one registered handle. -/
def sampleTable : HandleTableState :=
  ⟨[(7, sampleHandle)], none, some 3⟩

/-! Helper lemmas shared by several claims. -/

/-- Filtering by a predicate and by its negation partitions the length of a list. -/
theorem length_filter_partitionB {α : Type} (p : α → Bool) (l : List α) :
    (l.filter p).length + (l.filter fun a => !(p a)).length = l.length := by
  induction l with
  | nil => simp
  | cons a l ih =>
    cases hpa : p a <;> simp [List.filter_cons, hpa] <;> omega

/-- A list whose two tag-filtered halves are duplicate-free is duplicate-free. -/
theorem nodup_of_filter_partition {α : Type} [DecidableEq α] (p : α → Bool)
    (l : List α) (h1 : (l.filter p).Nodup)
    (h2 : (l.filter fun a => !(p a)).Nodup) : l.Nodup := by
  rw [List.nodup_iff_count_le_one] at h1 h2 ⊢
  intro a
  cases hpa : p a
  · have := h2 a
    rwa [List.count_filter (by simp [hpa])] at this
  · have := h1 a
    rwa [List.count_filter (by simp [hpa])] at this

/-- Dedup never lengthens a list. -/
theorem dedup_length_le {α : Type} [DecidableEq α] (l : List α) :
    l.dedup.length ≤ l.length :=
  (List.dedup_sublist l).length_le

/-- Characterization of membership in the memory group. -/
theorem mem_memoryGroup {ids : List ObjectID} {i : ObjectID} :
    i ∈ memoryGroup ids ↔ i ∈ ids ∧ i.IsDirectCallType = true := by
  unfold memoryGroup
  rw [List.mem_dedup, List.mem_filter]

/-- Characterization of membership in the plasma group. -/
theorem mem_plasmaGroup {ids : List ObjectID} {i : ObjectID} :
    i ∈ plasmaGroup ids ↔ i ∈ ids ∧ i.IsDirectCallType = false := by
  unfold plasmaGroup
  rw [List.mem_dedup, List.mem_filter]
  simp

/-- The duplicate check of Wait: the grouped set sizes add up to the input length
exactly when the input has no duplicate id. -/
theorem group_lengths_eq_iff_nodup (ids : List ObjectID) :
    (plasmaGroup ids).length + (memoryGroup ids).length = ids.length ↔ ids.Nodup := by
  unfold plasmaGroup memoryGroup
  constructor
  · intro h
    have hpart := length_filter_partitionB (fun i => i.IsDirectCallType) ids
    have h1 := dedup_length_le (ids.filter fun i => !i.IsDirectCallType)
    have h2 := dedup_length_le (ids.filter fun i => i.IsDirectCallType)
    have e1 : (ids.filter fun i => !i.IsDirectCallType).dedup.length
        = (ids.filter fun i => !i.IsDirectCallType).length := by omega
    have e2 : (ids.filter fun i => i.IsDirectCallType).dedup.length
        = (ids.filter fun i => i.IsDirectCallType).length := by omega
    have d1 := (List.dedup_sublist (ids.filter fun i => !i.IsDirectCallType)).eq_of_length e1
    have d2 := (List.dedup_sublist (ids.filter fun i => i.IsDirectCallType)).eq_of_length e2
    have n1 : (ids.filter fun i => !i.IsDirectCallType).Nodup := by
      rw [← d1]; exact List.nodup_dedup _
    have n2 : (ids.filter fun i => i.IsDirectCallType).Nodup := by
      rw [← d2]; exact List.nodup_dedup _
    exact nodup_of_filter_partition _ ids n2 n1
  · intro h
    rw [List.dedup_eq_self.mpr (h.filter _), List.dedup_eq_self.mpr (h.filter _)]
    have := length_filter_partitionB (fun i => i.IsDirectCallType) ids
    omega

/-- C10: for every call to Wait with num_objects at most zero or greater than the
number of ids, Wait returns the Invalid range status without consulting either
store. -/
theorem c10_wait_num_objects_range (mem : Store) (plasmaHas : ObjectID → Bool)
    (ids : List ObjectID) (numObjects timeoutMs : Int)
    (h : numObjects ≤ 0 ∨ numObjects > (ids.length : Int)) :
    (CoreWorker.Wait mem plasmaHas ids numObjects timeoutMs).status
        = Status.invalid waitRangeMsg ∧
    (CoreWorker.Wait mem plasmaHas ids numObjects timeoutMs).storeConsulted = false := by
  unfold CoreWorker.Wait
  rw [if_pos h]
  exact ⟨rfl, rfl⟩

/-- C10 witness: Wait at num_objects zero on a singleton list. -/
theorem c10_wait_num_objects_range_witness :
    (CoreWorker.Wait sampleMem samplePlasmaHas [sampleDirectA] 0 0).status
        = Status.invalid waitRangeMsg ∧
    (CoreWorker.Wait sampleMem samplePlasmaHas [sampleDirectA] 0 0).storeConsulted
        = false :=
  c10_wait_num_objects_range sampleMem samplePlasmaHas [sampleDirectA] 0 0
    (Or.inl (by decide))

/-- C4: Wait on an input list containing the same id twice returns an
invalid-argument status without consulting either store. -/
theorem c4_wait_duplicate_rejected (mem : Store) (plasmaHas : ObjectID → Bool)
    (ids : List ObjectID) (numObjects timeoutMs : Int) (hdup : ¬ ids.Nodup) :
    (CoreWorker.Wait mem plasmaHas ids numObjects timeoutMs).status.IsInvalidArgument
        = true ∧
    (CoreWorker.Wait mem plasmaHas ids numObjects timeoutMs).storeConsulted = false := by
  unfold CoreWorker.Wait
  by_cases hr : numObjects ≤ 0 ∨ numObjects > (ids.length : Int)
  · rw [if_pos hr]
    exact ⟨rfl, rfl⟩
  · rw [if_neg hr]
    have hne : (plasmaGroup ids).length + (memoryGroup ids).length ≠ ids.length :=
      fun he => hdup ((group_lengths_eq_iff_nodup ids).mp he)
    simp only []
    rw [if_pos hne]
    exact ⟨rfl, rfl⟩

/-- C4 witness: Wait on a list repeating one id. -/
theorem c4_wait_duplicate_rejected_witness :
    (CoreWorker.Wait sampleMem samplePlasmaHas [sampleDirectA, sampleDirectA] 1
        0).status.IsInvalidArgument = true ∧
    (CoreWorker.Wait sampleMem samplePlasmaHas [sampleDirectA, sampleDirectA] 1
        0).storeConsulted = false :=
  c4_wait_duplicate_rejected sampleMem samplePlasmaHas [sampleDirectA, sampleDirectA]
    1 0 (by decide)

/-- C8: the id-allocating Put allocates ObjectID::ForPut(current task id, next put
index, RAYLET transport), records the caller as owner, writes the object to
plasma, and requests the raylet pin exactly when, and only after, the plasma put
succeeded. -/
theorem c8_put_allocates_and_pins (currentTaskId nextPutIndex callerId : Nat)
    (plasmaPutStatus : Status) :
    (CoreWorker.Put currentTaskId nextPutIndex callerId plasmaPutStatus).objectId
        = ObjectID.ForPut currentTaskId nextPutIndex Transport.raylet ∧
    (plasmaPutStatus = Status.ok →
      CoreWorker.Put currentTaskId nextPutIndex callerId plasmaPutStatus
        = { objectId := ObjectID.ForPut currentTaskId nextPutIndex Transport.raylet
            events := [PutEvent.addOwnedObject
                (ObjectID.ForPut currentTaskId nextPutIndex Transport.raylet) callerId,
              PutEvent.plasmaPut
                (ObjectID.ForPut currentTaskId nextPutIndex Transport.raylet),
              PutEvent.pinObjectIds
                (ObjectID.ForPut currentTaskId nextPutIndex Transport.raylet)]
            returned := Status.ok }) ∧
    (plasmaPutStatus ≠ Status.ok →
      CoreWorker.Put currentTaskId nextPutIndex callerId plasmaPutStatus
        = { objectId := ObjectID.ForPut currentTaskId nextPutIndex Transport.raylet
            events := [PutEvent.addOwnedObject
                (ObjectID.ForPut currentTaskId nextPutIndex Transport.raylet) callerId,
              PutEvent.plasmaPut
                (ObjectID.ForPut currentTaskId nextPutIndex Transport.raylet)]
            returned := plasmaPutStatus }) := by
  by_cases h : plasmaPutStatus = Status.ok <;>
    simp [CoreWorker.Put, h]

/-- C8 witness: a successful Put at concrete indices. -/
theorem c8_put_allocates_and_pins_witness :
    (CoreWorker.Put 4 2 9 Status.ok).objectId
        = ObjectID.ForPut 4 2 Transport.raylet ∧
    (Status.ok = Status.ok →
      CoreWorker.Put 4 2 9 Status.ok
        = { objectId := ObjectID.ForPut 4 2 Transport.raylet
            events := [PutEvent.addOwnedObject (ObjectID.ForPut 4 2 Transport.raylet) 9,
              PutEvent.plasmaPut (ObjectID.ForPut 4 2 Transport.raylet),
              PutEvent.pinObjectIds (ObjectID.ForPut 4 2 Transport.raylet)]
            returned := Status.ok }) ∧
    (Status.ok ≠ Status.ok →
      CoreWorker.Put 4 2 9 Status.ok
        = { objectId := ObjectID.ForPut 4 2 Transport.raylet
            events := [PutEvent.addOwnedObject (ObjectID.ForPut 4 2 Transport.raylet) 9,
              PutEvent.plasmaPut (ObjectID.ForPut 4 2 Transport.raylet)]
            returned := Status.ok }) :=
  c8_put_allocates_and_pins 4 2 9 Status.ok

/-- C1 counterexample: on a dead direct-call handle, SubmitActorTask returns the
default ok status to the caller, not the IOError the claim states; the IOError
only reaches PendingTaskFailed. -/
theorem c1_dead_actor_status_cex :
    (CoreWorker.SubmitActorTask ⟨true, true⟩ Status.ok).returned
        ≠ Status.ioError deadActorMsg ∧
    (CoreWorker.SubmitActorTask ⟨true, true⟩ Status.ok).returned = Status.ok := by
  decide

/-- C1 (amended): SubmitActorTask on a dead direct-call handle records the pending
task, fails it via PendingTaskFailed with ACTOR_DIED and an IOError status
carrying the message about sending a task to a dead actor, submits to no
transport, and returns ok to the caller. -/
theorem c1_submit_to_dead_actor (h : ActorHandle) (submitterStatus : Status)
    (hdc : h.isDirectCall = true) (hd : h.isDead = true) :
    CoreWorker.SubmitActorTask h submitterStatus
      = { addedPendingTask := true
          pendingTaskFailed := some (ErrorType.actorDied, Status.ioError deadActorMsg)
          directSubmitted := false
          rayletSubmitted := false
          returned := Status.ok } := by
  simp [CoreWorker.SubmitActorTask, hdc, hd]

/-- C1 witness: the amended behaviour at a concrete dead direct-call handle. -/
theorem c1_submit_to_dead_actor_witness :
    CoreWorker.SubmitActorTask ⟨true, true⟩ Status.ok
      = { addedPendingTask := true
          pendingTaskFailed := some (ErrorType.actorDied, Status.ioError deadActorMsg)
          directSubmitted := false
          rayletSubmitted := false
          returned := Status.ok } :=
  c1_submit_to_dead_actor ⟨true, true⟩ Status.ok rfl rfl

/-- C2 counterexample: the table holds a registered handle, yet SetCurrentTaskId
with a Nil task id on a non-actor process removes it (clears the whole table)
before process termination. -/
theorem c2_handle_cleared_cex :
    sampleTable.actorHandles ≠ [] ∧
    (CoreWorker.SetCurrentTaskId sampleTable none).actorHandles = [] := by
  decide

/-- C2 (amended): a registered handle survives the DEAD notification, which only
marks it dead and keeps every key in the table; SetCurrentTaskId leaves the
table unchanged unless both the current actor id and the new task id are Nil;
in that remaining case, the end of a non-actor task, the whole table is
cleared. -/
theorem c2_handle_retention (st : HandleTableState) (aid : Nat) (tid : Option Nat)
    (h : ActorHandle) (hmem : (aid, h) ∈ st.actorHandles) :
    (aid, { h with isDead := true })
        ∈ (CoreWorker.OnActorDeadNotification st aid).actorHandles ∧
    ((CoreWorker.OnActorDeadNotification st aid).actorHandles.map Prod.fst
        = st.actorHandles.map Prod.fst) ∧
    (st.currentActorId ≠ none ∨ tid ≠ none →
        (CoreWorker.SetCurrentTaskId st tid).actorHandles = st.actorHandles) ∧
    (st.currentActorId = none →
        (CoreWorker.SetCurrentTaskId st none).actorHandles = []) := by
  refine ⟨?_, ?_, ?_, ?_⟩
  · have hmap := List.mem_map_of_mem (fun p : Nat × ActorHandle =>
      if p.1 = aid then (p.1, { p.2 with isDead := true }) else p) hmem
    unfold CoreWorker.OnActorDeadNotification
    simpa using hmap
  · unfold CoreWorker.OnActorDeadNotification
    simp only [List.map_map]
    apply List.map_congr_left
    intro p _
    by_cases hc : p.1 = aid <;> simp [hc]
  · intro hne
    unfold CoreWorker.SetCurrentTaskId
    rw [if_neg]
    intro hcon
    rcases hne with hne | hne
    · exact hne hcon.1
    · exact hne hcon.2
  · intro hc
    unfold CoreWorker.SetCurrentTaskId
    rw [if_pos ⟨hc, rfl⟩]

/-- C2 witness: the amended behaviour at the sample table. -/
theorem c2_handle_retention_witness :
    (7, { sampleHandle with isDead := true })
        ∈ (CoreWorker.OnActorDeadNotification sampleTable 7).actorHandles ∧
    ((CoreWorker.OnActorDeadNotification sampleTable 7).actorHandles.map Prod.fst
        = sampleTable.actorHandles.map Prod.fst) ∧
    (sampleTable.currentActorId ≠ none ∨ some 1 ≠ none →
        (CoreWorker.SetCurrentTaskId sampleTable (some 1)).actorHandles
          = sampleTable.actorHandles) ∧
    (sampleTable.currentActorId = none →
        (CoreWorker.SetCurrentTaskId sampleTable none).actorHandles = []) :=
  c2_handle_retention sampleTable 7 (some 1) sampleHandle (by decide)

/-- The drain loop of InternalHeartbeat on a deadline-sorted queue submits exactly
the entries whose deadline lies strictly before the current time and keeps the
rest. -/
theorem drainToResubmit_spec (nowMs : Nat) :
    ∀ q : List (Nat × Nat), q.Pairwise (fun a b => a.1 ≤ b.1) →
      drainToResubmit nowMs q
        = ((q.filter fun e => decide (e.1 < nowMs)).map Prod.snd,
           q.filter fun e => !(decide (e.1 < nowMs))) := by
  intro q
  induction q with
  | nil => intro _; simp [drainToResubmit]
  | cons e rest ih =>
    intro hq
    obtain ⟨d, s⟩ := e
    rw [List.pairwise_cons] at hq
    by_cases hlt : d < nowMs
    · have hr := ih hq.2
      simp [drainToResubmit, hlt, hr]
    · have hall : ∀ x ∈ rest, ¬ x.1 < nowMs := fun x hx hcon =>
        hlt (Nat.lt_of_le_of_lt (hq.1 x hx) hcon)
      have h1 : (rest.filter fun x => decide (x.1 < nowMs)) = [] := by
        rw [List.filter_eq_nil_iff]
        intro x hx
        simpa using hall x hx
      have h2 : (rest.filter fun x => !(decide (x.1 < nowMs))) = rest := by
        rw [List.filter_eq_self]
        intro x hx
        simpa using hall x hx
      simp [drainToResubmit, hlt, h1, h2]

/-- C9: one heartbeat tick over a deadline-sorted resubmit queue submits exactly
the entries whose recorded deadline has passed, in order, removes them, keeps
the rest, and reschedules the timer from the previous absolute expiry plus the
1000 ms interval; the retry callback records deadlines equal to the failure
time plus 5000 ms. -/
theorem c9_internal_heartbeat (nowMs : Nat) (st : HeartbeatState)
    (q : List (Nat × Nat)) (spec : Nat)
    (hq : st.toResubmit.Pairwise fun a b => a.1 ≤ b.1) :
    (CoreWorker.InternalHeartbeat nowMs st).1
        = (st.toResubmit.filter fun e => decide (e.1 < nowMs)).map Prod.snd ∧
    (CoreWorker.InternalHeartbeat nowMs st).2.toResubmit
        = st.toResubmit.filter (fun e => !(decide (e.1 < nowMs))) ∧
    (CoreWorker.InternalHeartbeat nowMs st).2.timerExpiry = st.timerExpiry + 1000 ∧
    taskManagerRetryCallback nowMs spec q = q ++ [(nowMs + 5000, spec)] := by
  have h := drainToResubmit_spec nowMs st.toResubmit hq
  unfold CoreWorker.InternalHeartbeat
  rw [h]
  exact ⟨rfl, rfl, rfl, rfl⟩

/-- C9 witness: a tick at time 5000 over a queue with one expired and one pending
entry. -/
theorem c9_internal_heartbeat_witness :
    (CoreWorker.InternalHeartbeat 5000 ⟨[(1000, 11), (9000, 22)], 42⟩).1
        = ([(1000, 11), (9000, 22)].filter fun e => decide (e.1 < 5000)).map Prod.snd ∧
    (CoreWorker.InternalHeartbeat 5000 ⟨[(1000, 11), (9000, 22)], 42⟩).2.toResubmit
        = [(1000, 11), (9000, 22)].filter (fun e => !(decide (e.1 < 5000))) ∧
    (CoreWorker.InternalHeartbeat 5000 ⟨[(1000, 11), (9000, 22)], 42⟩).2.timerExpiry
        = 42 + 1000 ∧
    taskManagerRetryCallback 5000 33 [(1000, 11)] = [(1000, 11)] ++ [(5000 + 5000, 33)] :=
  c9_internal_heartbeat 5000 ⟨[(1000, 11), (9000, 22)], 42⟩ [(1000, 11)] 33 (by decide)

/-- The got-exception flag is false when no DIRECT id of the input holds an
error-kind marker in the memory store. -/
theorem gotMemException_eq_false {mem : Store} {ids : List ObjectID}
    (hnoexc : ∀ j ∈ ids, j.IsDirectCallType = true → memExceptionAt mem j = false) :
    gotMemException mem (memoryGroup ids) = false := by
  unfold gotMemException
  rw [List.any_eq_false]
  intro j hj
  obtain ⟨hj1, hj2⟩ := mem_memoryGroup.mp hj
  simpa using hnoexc j hj1 hj2

/-- Outcome of Get when the memory store reported an exception: the plasma store
is not consulted and the results come from the memory lookups alone. -/
theorem get_outcome_exc (mem plasma : Store) (ids : List ObjectID) (timeoutMs : Int)
    (hexc : gotMemException mem (memoryGroup ids) = true) :
    CoreWorker.Get mem plasma ids timeoutMs
      = { memQueried := memoryGroup ids
          plasmaQueried := []
          plasmaConsulted := false
          results := ids.map (getMemFound mem ids)
          assertionsOk := getAssemblyAsserts (ids.map (getMemFound mem ids)) timeoutMs
          status := Status.ok } := by
  unfold CoreWorker.Get
  rw [hexc]
  rfl

/-- Outcome of Get when no exception was fetched from the memory store: the plasma
store is consulted on the RAYLET group plus the reclassified sentinel ids. -/
theorem get_outcome_noexc (mem plasma : Store) (ids : List ObjectID) (timeoutMs : Int)
    (hexc : gotMemException mem (memoryGroup ids) = false) :
    CoreWorker.Get mem plasma ids timeoutMs
      = { memQueried := memoryGroup ids
          plasmaQueried := getPlasmaSet mem ids
          plasmaConsulted := true
          results := ids.map (getResultFun mem plasma ids)
          assertionsOk := getAssemblyAsserts (ids.map (getResultFun mem plasma ids))
            timeoutMs
          status := Status.ok } := by
  unfold CoreWorker.Get
  rw [hexc]
  rfl

/-- C3 counterexample: with the OBJECT_IN_PLASMA sentinel stored for sampleDirectA
batched together with an error marker for sampleDirectB, Get skips the plasma
store entirely, so the DIRECT id carrying the sentinel is not re-fetched from
plasma, contrary to the claim as stated. -/
theorem c3_get_dispatch_cex :
    sampleDirectA.IsDirectCallType = true ∧
    sampleMem sampleDirectA = some RayObj.inPlasmaMarker ∧
    (CoreWorker.Get sampleMem samplePlasma [sampleDirectA, sampleDirectB]
        (-1)).plasmaConsulted = false ∧
    sampleDirectA ∉ (CoreWorker.Get sampleMem samplePlasma
        [sampleDirectA, sampleDirectB] (-1)).plasmaQueried := by
  decide

/-- C3 (amended): provided no DIRECT id of the input carries an error-kind marker
in the memory store, Get consults the plasma store; every DIRECT id of the input
is looked up in the memory store, every DIRECT id whose memory value is the
OBJECT_IN_PLASMA sentinel is re-fetched from the plasma store, and every RAYLET
id is looked up only in the plasma store, never in the memory store.  When an
exception is fetched from the memory store the plasma lookup is skipped
entirely. -/
theorem c3_get_store_dispatch (mem plasma : Store) (ids : List ObjectID)
    (timeoutMs : Int) (i : ObjectID) (hi : i ∈ ids)
    (hnoexc : ∀ j ∈ ids, j.IsDirectCallType = true → memExceptionAt mem j = false) :
    (CoreWorker.Get mem plasma ids timeoutMs).plasmaConsulted = true ∧
    (i.IsDirectCallType = true →
      i ∈ (CoreWorker.Get mem plasma ids timeoutMs).memQueried) ∧
    (i.IsDirectCallType = true → memHasPlasmaMarker mem i = true →
      i ∈ (CoreWorker.Get mem plasma ids timeoutMs).plasmaQueried) ∧
    (i.IsDirectCallType = false →
      i ∉ (CoreWorker.Get mem plasma ids timeoutMs).memQueried ∧
      i ∈ (CoreWorker.Get mem plasma ids timeoutMs).plasmaQueried) := by
  rw [get_outcome_noexc mem plasma ids timeoutMs (gotMemException_eq_false hnoexc)]
  refine ⟨rfl, ?_, ?_, ?_⟩
  · intro hdir
    exact mem_memoryGroup.mpr ⟨hi, hdir⟩
  · intro hdir hmark
    exact List.mem_append.mpr (Or.inr
      (List.mem_filter.mpr ⟨mem_memoryGroup.mpr ⟨hi, hdir⟩, hmark⟩))
  · intro hdir
    constructor
    · intro hc
      obtain ⟨_, hdt⟩ := mem_memoryGroup.mp hc
      rw [hdir] at hdt
      exact absurd hdt (by decide)
    · exact List.mem_append.mpr (Or.inl (mem_plasmaGroup.mpr ⟨hi, hdir⟩))

/-- C3 witness: the amended dispatch at a concrete exception-free input. -/
theorem c3_get_store_dispatch_witness :
    (CoreWorker.Get sampleMemOk samplePlasma [sampleDirectA, sampleRayletA]
        (-1)).plasmaConsulted = true ∧
    (sampleDirectA.IsDirectCallType = true →
      sampleDirectA ∈ (CoreWorker.Get sampleMemOk samplePlasma
        [sampleDirectA, sampleRayletA] (-1)).memQueried) ∧
    (sampleDirectA.IsDirectCallType = true →
      memHasPlasmaMarker sampleMemOk sampleDirectA = true →
      sampleDirectA ∈ (CoreWorker.Get sampleMemOk samplePlasma
        [sampleDirectA, sampleRayletA] (-1)).plasmaQueried) ∧
    (sampleDirectA.IsDirectCallType = false →
      sampleDirectA ∉ (CoreWorker.Get sampleMemOk samplePlasma
        [sampleDirectA, sampleRayletA] (-1)).memQueried ∧
      sampleDirectA ∈ (CoreWorker.Get sampleMemOk samplePlasma
        [sampleDirectA, sampleRayletA] (-1)).plasmaQueried) :=
  c3_get_store_dispatch sampleMemOk samplePlasma [sampleDirectA, sampleRayletA]
    (-1) sampleDirectA (by decide) (by decide)

/-- In both branches, the results assembled by Get are the input ids mapped
through a single lookup function. -/
theorem get_results_is_map (mem plasma : Store) (ids : List ObjectID)
    (timeoutMs : Int) :
    ∃ f : ObjectID → Option RayObj,
      (CoreWorker.Get mem plasma ids timeoutMs).results = ids.map f := by
  by_cases h : gotMemException mem (memoryGroup ids) = true
  · rw [get_outcome_exc mem plasma ids timeoutMs h]
    exact ⟨_, rfl⟩
  · rw [Bool.not_eq_true] at h
    rw [get_outcome_noexc mem plasma ids timeoutMs h]
    exact ⟨_, rfl⟩

/-- C7: Get assembles exactly one result per input id, in input order, equal input
ids receiving equal results; and when the timeout is negative, no assembled
result carries an exception marker, and the stores hold every queried id (the
spec contract of an unbounded blocking get), every assembled entry is
non-null. -/
theorem c7_get_results_shape (mem plasma : Store) (ids : List ObjectID)
    (timeoutMs : Int) (a b : Nat) :
    (CoreWorker.Get mem plasma ids timeoutMs).results.length = ids.length ∧
    (ids[a]? = ids[b]? →
      (CoreWorker.Get mem plasma ids timeoutMs).results[a]?
        = (CoreWorker.Get mem plasma ids timeoutMs).results[b]?) ∧
    (timeoutMs < 0 →
      (CoreWorker.Get mem plasma ids timeoutMs).results.any resultIsException
          = false →
      (∀ i ∈ ids, i.IsDirectCallType = true → (mem i).isSome = true) →
      (∀ i ∈ ids, (i.IsDirectCallType = false ∨ mem i = some RayObj.inPlasmaMarker) →
        (plasma i).isSome = true) →
      (CoreWorker.Get mem plasma ids timeoutMs).results.all Option.isSome = true) := by
  obtain ⟨f, hf⟩ := get_results_is_map mem plasma ids timeoutMs
  refine ⟨by rw [hf]; exact List.length_map ids f, ?_, ?_⟩
  · intro hab
    rw [hf, List.getElem?_map, List.getElem?_map, hab]
  · intro _ hnoexc hmem hpl
    by_cases hexc : gotMemException mem (memoryGroup ids) = true
    · exfalso
      rw [get_outcome_exc mem plasma ids timeoutMs hexc] at hnoexc
      unfold gotMemException at hexc
      obtain ⟨j, hj, hjex⟩ := List.any_eq_true.mp hexc
      obtain ⟨hjids, hjdir⟩ := mem_memoryGroup.mp hj
      have hany : (ids.map (getMemFound mem ids)).any resultIsException = true := by
        refine List.any_eq_true.mpr ⟨getMemFound mem ids j,
          List.mem_map_of_mem (getMemFound mem ids) hjids, ?_⟩
        unfold getMemFound
        rw [if_pos hj]
        unfold memExceptionAt at hjex
        unfold resultIsException
        cases hv : mem j with
        | none => rw [hv] at hjex; exact absurd hjex (by decide)
        | some v => rw [hv] at hjex; exact hjex
      rw [hnoexc] at hany
      exact absurd hany (by decide)
    · rw [Bool.not_eq_true] at hexc
      rw [get_outcome_noexc mem plasma ids timeoutMs hexc]
      rw [List.all_eq_true]
      intro r hr
      obtain ⟨i, hi, hri⟩ := List.mem_map.mp hr
      subst hri
      unfold getResultFun
      by_cases hc : i ∈ getPlasmaSet mem ids ∧ (plasma i).isSome
      · rw [if_pos hc]
        exact hc.2
      · rw [if_neg hc]
        unfold getMemFound
        by_cases hdir : i.IsDirectCallType = true
        · rw [if_pos (mem_memoryGroup.mpr ⟨hi, hdir⟩)]
          exact hmem i hi hdir
        · exfalso
          rw [Bool.not_eq_true] at hdir
          have hpi : (plasma i).isSome = true := hpl i hi (Or.inl hdir)
          have hmemb : i ∈ getPlasmaSet mem ids :=
            List.mem_append.mpr (Or.inl (mem_plasmaGroup.mpr ⟨hi, hdir⟩))
          exact hc ⟨hmemb, hpi⟩

/-- C7 witness: concrete call with a duplicated id, unbounded timeout, and stores
holding all queried ids. -/
theorem c7_get_results_shape_witness :
    (CoreWorker.Get sampleMemOk samplePlasma
        [sampleDirectA, sampleRayletA, sampleDirectA] (-1)).results.length
      = [sampleDirectA, sampleRayletA, sampleDirectA].length ∧
    ([sampleDirectA, sampleRayletA, sampleDirectA][0]?
        = [sampleDirectA, sampleRayletA, sampleDirectA][2]? →
      (CoreWorker.Get sampleMemOk samplePlasma
        [sampleDirectA, sampleRayletA, sampleDirectA] (-1)).results[0]?
        = (CoreWorker.Get sampleMemOk samplePlasma
          [sampleDirectA, sampleRayletA, sampleDirectA] (-1)).results[2]?) ∧
    ((-1 : Int) < 0 →
      (CoreWorker.Get sampleMemOk samplePlasma
          [sampleDirectA, sampleRayletA, sampleDirectA] (-1)).results.any
          resultIsException = false →
      (∀ i ∈ [sampleDirectA, sampleRayletA, sampleDirectA],
        i.IsDirectCallType = true → (sampleMemOk i).isSome = true) →
      (∀ i ∈ [sampleDirectA, sampleRayletA, sampleDirectA],
        (i.IsDirectCallType = false ∨ sampleMemOk i = some RayObj.inPlasmaMarker) →
        (samplePlasma i).isSome = true) →
      (CoreWorker.Get sampleMemOk samplePlasma
        [sampleDirectA, sampleRayletA, sampleDirectA] (-1)).results.all
        Option.isSome = true) :=
  c7_get_results_shape sampleMemOk samplePlasma
    [sampleDirectA, sampleRayletA, sampleDirectA] (-1) 0 2

/-- Two duplicate-free lists with the same members have the same length. -/
theorem nodup_length_eq_of_mem_iff {α : Type} {l₁ l₂ : List α}
    (h₁ : l₁.Nodup) (h₂ : l₂.Nodup) (hm : ∀ x, x ∈ l₁ ↔ x ∈ l₂) :
    l₁.length = l₂.length :=
  Nat.le_antisymm ((h₁.subperm fun x hx => (hm x).mp hx).length_le)
    ((h₂.subperm fun x hx => (hm x).mpr hx).length_le)

/-- A duplicate-free list is no longer than any list containing its members. -/
theorem nodup_length_le_of_subset {α : Type} {l₁ l₂ : List α}
    (h₁ : l₁.Nodup) (hsub : ∀ x ∈ l₁, x ∈ l₂) : l₁.length ≤ l₂.length :=
  (h₁.subperm fun x hx => hsub x hx).length_le

/-- An id holding the OBJECT_IN_PLASMA sentinel is present in the memory store. -/
theorem marker_isSome {mem : Store} {x : ObjectID}
    (h : memHasPlasmaMarker mem x = true) : (mem x).isSome = true := by
  unfold memHasPlasmaMarker at h
  cases hv : mem x with
  | none => rw [hv] at h; exact absurd h (by decide)
  | some v => simp

/-- Membership in the reclassification set computed by RetryObjectInPlasmaErrors. -/
theorem mem_retry_recl {mem : Store} {s : WaitSets} {x : ObjectID} :
    (x ∈ s.memIds.filter fun i => decide (i ∈ s.ready) && memHasPlasmaMarker mem i)
      ↔ x ∈ s.memIds ∧ x ∈ s.ready ∧ memHasPlasmaMarker mem x = true := by
  simp [List.mem_filter, and_assoc]

/-- Membership in the memory candidates after reclassification. -/
theorem retry_mem_memIds {mem : Store} {s : WaitSets} {x : ObjectID} :
    x ∈ (RetryObjectInPlasmaErrors mem s).memIds
      ↔ x ∈ s.memIds ∧ ¬(x ∈ s.ready ∧ memHasPlasmaMarker mem x = true) := by
  unfold RetryObjectInPlasmaErrors
  simp only [List.mem_filter, Bool.not_eq_true', decide_eq_false_iff_not]
  rw [Iff.comm, and_congr_right_iff]
  intro hx
  rw [not_iff_not]
  simp only [Bool.and_eq_true, decide_eq_true_eq]
  tauto

/-- Membership in the ready set after reclassification. -/
theorem retry_mem_ready {mem : Store} {s : WaitSets} {x : ObjectID} :
    x ∈ (RetryObjectInPlasmaErrors mem s).ready
      ↔ x ∈ s.ready ∧ ¬(x ∈ s.memIds ∧ memHasPlasmaMarker mem x = true) := by
  unfold RetryObjectInPlasmaErrors
  simp only [List.mem_filter, Bool.not_eq_true', decide_eq_false_iff_not]
  rw [Iff.comm, and_congr_right_iff]
  intro hx
  rw [not_iff_not]
  simp only [Bool.and_eq_true, decide_eq_true_eq]
  tauto

/-- Membership in the plasma candidates after reclassification. -/
theorem retry_mem_plasmaIds {mem : Store} {s : WaitSets} {x : ObjectID} :
    x ∈ (RetryObjectInPlasmaErrors mem s).plasmaIds
      ↔ x ∈ s.plasmaIds
        ∨ (x ∈ s.memIds ∧ x ∈ s.ready ∧ memHasPlasmaMarker mem x = true) := by
  unfold RetryObjectInPlasmaErrors
  simp only [List.mem_append]
  rw [or_congr_right]
  exact mem_retry_recl

/-- Reclassification keeps the memory candidates duplicate-free. -/
theorem retry_memIds_nodup {mem : Store} {s : WaitSets} (hmn : s.memIds.Nodup) :
    (RetryObjectInPlasmaErrors mem s).memIds.Nodup := by
  unfold RetryObjectInPlasmaErrors
  exact hmn.filter _

/-- Reclassification keeps the ready set duplicate-free. -/
theorem retry_ready_nodup {mem : Store} {s : WaitSets} (hrn : s.ready.Nodup) :
    (RetryObjectInPlasmaErrors mem s).ready.Nodup := by
  unfold RetryObjectInPlasmaErrors
  exact hrn.filter _

/-- Reclassification keeps the plasma candidates duplicate-free. -/
theorem retry_plasmaIds_nodup {mem : Store} {s : WaitSets}
    (hmn : s.memIds.Nodup) (hpn : s.plasmaIds.Nodup)
    (hdisj : ∀ x ∈ s.memIds, x ∉ s.plasmaIds) :
    (RetryObjectInPlasmaErrors mem s).plasmaIds.Nodup := by
  unfold RetryObjectInPlasmaErrors
  refine List.Nodup.append hpn (hmn.filter _) ?_
  intro x hxp hxr
  exact hdisj x (List.mem_filter.mp hxr).1 hxp

/-- Reclassification shortens the ready set by exactly the number of ready ids
holding the OBJECT_IN_PLASMA sentinel. -/
theorem retry_ready_length (mem : Store) (s : WaitSets)
    (_hmn : s.memIds.Nodup) (hrn : s.ready.Nodup)
    (hrsub : ∀ x ∈ s.ready, x ∈ s.memIds) :
    (RetryObjectInPlasmaErrors mem s).ready.length
        + (s.ready.filter fun i => memHasPlasmaMarker mem i).length
      = s.ready.length := by
  have h1 : (RetryObjectInPlasmaErrors mem s).ready.length
      = (s.ready.filter fun i => !(memHasPlasmaMarker mem i)).length := by
    apply nodup_length_eq_of_mem_iff (retry_ready_nodup hrn) (hrn.filter _)
    intro x
    rw [retry_mem_ready, List.mem_filter]
    simp only [Bool.not_eq_true']
    constructor
    · rintro ⟨hxr, hneg⟩
      refine ⟨hxr, ?_⟩
      cases h : memHasPlasmaMarker mem x
      · rfl
      · exact absurd ⟨hrsub x hxr, h⟩ hneg
    · rintro ⟨hxr, hmk⟩
      exact ⟨hxr, fun hc => by simp [hc.2] at hmk⟩
  have h2 := length_filter_partitionB (fun i => memHasPlasmaMarker mem i) s.ready
  omega

/-- Reclassification grows the plasma present count by exactly the number of
ready sentinel ids, under the promotion coherence assumption that a sentinel id
is present in plasma. -/
theorem retry_plasma_filter_length (mem : Store) (ph : ObjectID → Bool)
    (s : WaitSets) (hmn : s.memIds.Nodup) (hrn : s.ready.Nodup)
    (hrsub : ∀ x ∈ s.ready, x ∈ s.memIds)
    (hcoh : ∀ x ∈ s.memIds, memHasPlasmaMarker mem x = true → ph x = true) :
    ((RetryObjectInPlasmaErrors mem s).plasmaIds.filter ph).length
      = (s.plasmaIds.filter ph).length
        + (s.ready.filter fun i => memHasPlasmaMarker mem i).length := by
  have hrecl_len : ((s.memIds.filter fun i =>
        decide (i ∈ s.ready) && memHasPlasmaMarker mem i)).length
      = (s.ready.filter fun i => memHasPlasmaMarker mem i).length := by
    apply nodup_length_eq_of_mem_iff (hmn.filter _) (hrn.filter _)
    intro x
    rw [mem_retry_recl, List.mem_filter]
    constructor
    · rintro ⟨_, h2, h3⟩; exact ⟨h2, h3⟩
    · rintro ⟨h2, h3⟩; exact ⟨hrsub x h2, h2, h3⟩
  have hself : ((s.memIds.filter fun i =>
        decide (i ∈ s.ready) && memHasPlasmaMarker mem i).filter ph)
      = s.memIds.filter fun i => decide (i ∈ s.ready) && memHasPlasmaMarker mem i := by
    rw [List.filter_eq_self]
    intro x hx
    obtain ⟨hx1, _, hx3⟩ := mem_retry_recl.mp hx
    exact hcoh x hx1 hx3
  unfold RetryObjectInPlasmaErrors
  simp only [List.filter_append, List.length_append]
  rw [hself, hrecl_len]

/-- Reclassification shrinks the memory present count by exactly the number of
ready sentinel ids. -/
theorem retry_memIds_filter_length (mem : Store) (s : WaitSets)
    (hmn : s.memIds.Nodup) (hrn : s.ready.Nodup)
    (hrsub : ∀ x ∈ s.ready, x ∈ s.memIds) :
    ((RetryObjectInPlasmaErrors mem s).memIds.filter fun i => (mem i).isSome).length
        + (s.ready.filter fun i => memHasPlasmaMarker mem i).length
      = (s.memIds.filter fun i => (mem i).isSome).length := by
  have hq : ((s.memIds.filter fun i => (mem i).isSome).filter fun i =>
        decide (i ∈ s.ready) && memHasPlasmaMarker mem i).length
      = (s.ready.filter fun i => memHasPlasmaMarker mem i).length := by
    apply nodup_length_eq_of_mem_iff ((hmn.filter _).filter _) (hrn.filter _)
    intro x
    rw [List.mem_filter, List.mem_filter, List.mem_filter]
    simp only [Bool.and_eq_true, decide_eq_true_eq]
    constructor
    · rintro ⟨⟨_, _⟩, hr, hm⟩; exact ⟨hr, hm⟩
    · rintro ⟨hr, hm⟩
      exact ⟨⟨hrsub x hr, marker_isSome hm⟩, hr, hm⟩
  have hmain : ((RetryObjectInPlasmaErrors mem s).memIds.filter fun i =>
        (mem i).isSome).length
      = ((s.memIds.filter fun i => (mem i).isSome).filter fun i =>
          !(decide (i ∈ s.ready) && memHasPlasmaMarker mem i)).length := by
    apply nodup_length_eq_of_mem_iff ((retry_memIds_nodup hmn).filter _)
      ((hmn.filter _).filter _)
    intro x
    rw [List.mem_filter, retry_mem_memIds, List.mem_filter, List.mem_filter]
    constructor
    · rintro ⟨⟨hxm, hnot⟩, hsome⟩
      refine ⟨⟨hxm, hsome⟩, ?_⟩
      rw [Bool.not_eq_true', Bool.and_eq_false_iff]
      by_cases hr : x ∈ s.ready
      · cases h : memHasPlasmaMarker mem x
        · exact Or.inr rfl
        · exact absurd ⟨hr, h⟩ hnot
      · exact Or.inl (decide_eq_false_iff_not.mpr hr)
    · rintro ⟨⟨hxm, hsome⟩, hneg⟩
      rw [Bool.not_eq_true', Bool.and_eq_false_iff] at hneg
      refine ⟨⟨hxm, ?_⟩, hsome⟩
      rintro ⟨hr, hm⟩
      rcases hneg with hneg | hneg
      · exact (decide_eq_false_iff_not.mp hneg) hr
      · rw [hm] at hneg
        exact Bool.noConfusion hneg
  have hpart := length_filter_partitionB
    (fun i => decide (i ∈ s.ready) && memHasPlasmaMarker mem i)
    (s.memIds.filter fun i => (mem i).isSome)
  omega

/-- storeWait with an empty ready set reports the first k present candidates. -/
theorem storeWait_nil_ready (pr : ObjectID → Bool) (c : List ObjectID) (k : Nat) :
    storeWait pr c k [] = (c.filter pr).take k := by
  simp [storeWait]

/-- Length of a storeWait result. -/
theorem storeWait_length (pr : ObjectID → Bool) (c : List ObjectID) (k : Nat)
    (r : List ObjectID) :
    (storeWait pr c k r).length
      = r.length
        + min k (c.filter fun i => pr i && !(decide (i ∈ r))).length := by
  simp [storeWait, List.length_take]

/-- Everything reported by storeWait is an old ready id or a candidate. -/
theorem storeWait_subset {pr : ObjectID → Bool} {c : List ObjectID} {k : Nat}
    {r : List ObjectID} :
    ∀ x ∈ storeWait pr c k r, x ∈ r ∨ x ∈ c := by
  intro x hx
  rcases List.mem_append.mp hx with h | h
  · exact Or.inl h
  · exact Or.inr (List.mem_filter.mp (List.take_subset _ _ h)).1

/-- storeWait output is duplicate-free when ready and candidates are. -/
theorem storeWait_nodup {pr : ObjectID → Bool} {c : List ObjectID} {k : Nat}
    {r : List ObjectID} (hr : r.Nodup) (hc : c.Nodup) :
    (storeWait pr c k r).Nodup := by
  refine List.Nodup.append hr ((List.take_sublist _ _).nodup (hc.filter _)) ?_
  intro a har hat
  have h2 := (List.mem_filter.mp (List.take_subset _ _ hat)).2
  rw [Bool.and_eq_true] at h2
  have h3 := h2.2
  rw [Bool.not_eq_true', decide_eq_false_iff_not] at h3
  exact h3 har

/-- The memory phase with no memory candidates is the identity. -/
theorem memPhase_empty (mem : Store) (n : Nat) (p r : List ObjectID) :
    CoreWorker.waitPassMemPhase mem n ⟨[], p, r⟩ = ⟨[], p, r⟩ := by
  unfold CoreWorker.waitPassMemPhase
  rfl

/-- The memory phase with candidates runs the memory wait and reclassifies. -/
theorem memPhase_cons (mem : Store) (n : Nat) (s : WaitSets) (hne : s.memIds ≠ []) :
    CoreWorker.waitPassMemPhase mem n s
      = RetryObjectInPlasmaErrors mem
          { s with ready := CoreWorker.memWaitReady mem n s } := by
  have hie : s.memIds.isEmpty = false := by
    cases hs : s.memIds with
    | nil => exact absurd hs hne
    | cons a l => rfl
  unfold CoreWorker.waitPassMemPhase
  rw [hie]
  rfl

/-- The memory phase with candidates, with the record update reduced. -/
theorem memPhase_cons' (mem : Store) (n : Nat) (m p r : List ObjectID)
    (hne : m ≠ []) :
    CoreWorker.waitPassMemPhase mem n ⟨m, p, r⟩
      = RetryObjectInPlasmaErrors mem
          ⟨m, p, CoreWorker.memWaitReady mem n ⟨m, p, r⟩⟩ :=
  memPhase_cons mem n ⟨m, p, r⟩ hne

/-- The memory candidates of a pass are those left by its memory phase. -/
theorem waitPass_sets_memIds (mem : Store) (ph : ObjectID → Bool) (n : Nat)
    (s : WaitSets) :
    (CoreWorker.waitPass mem ph n s).sets.memIds
      = (CoreWorker.waitPassMemPhase mem n s).memIds := by
  simp only [CoreWorker.waitPass]
  by_cases h : (CoreWorker.waitPassMemPhase mem n s).ready.length < n
      ∧ (CoreWorker.waitPassMemPhase mem n s).plasmaIds ≠ []
  · rw [if_pos h]
  · rw [if_neg h]

/-- The plasma candidates of a pass are those left by its memory phase. -/
theorem waitPass_sets_plasmaIds (mem : Store) (ph : ObjectID → Bool) (n : Nat)
    (s : WaitSets) :
    (CoreWorker.waitPass mem ph n s).sets.plasmaIds
      = (CoreWorker.waitPassMemPhase mem n s).plasmaIds := by
  simp only [CoreWorker.waitPass]
  by_cases h : (CoreWorker.waitPassMemPhase mem n s).ready.length < n
      ∧ (CoreWorker.waitPassMemPhase mem n s).plasmaIds ≠ []
  · rw [if_pos h]
  · rw [if_neg h]

/-- Ready set of a pass whose plasma guard fired. -/
theorem waitPass_ready_of_guard (mem : Store) (ph : ObjectID → Bool) (n : Nat)
    (s : WaitSets)
    (h : (CoreWorker.waitPassMemPhase mem n s).ready.length < n
      ∧ (CoreWorker.waitPassMemPhase mem n s).plasmaIds ≠ []) :
    (CoreWorker.waitPass mem ph n s).sets.ready
      = storeWait ph (CoreWorker.waitPassMemPhase mem n s).plasmaIds
          (min (CoreWorker.waitPassMemPhase mem n s).plasmaIds.length
            (n - (CoreWorker.waitPassMemPhase mem n s).ready.length))
          (CoreWorker.waitPassMemPhase mem n s).ready := by
  simp only [CoreWorker.waitPass]
  rw [if_pos h]

/-- Ready set of a pass whose plasma guard did not fire. -/
theorem waitPass_ready_of_no_guard (mem : Store) (ph : ObjectID → Bool) (n : Nat)
    (s : WaitSets)
    (h : ¬((CoreWorker.waitPassMemPhase mem n s).ready.length < n
      ∧ (CoreWorker.waitPassMemPhase mem n s).plasmaIds ≠ [])) :
    (CoreWorker.waitPass mem ph n s).sets.ready
      = (CoreWorker.waitPassMemPhase mem n s).ready := by
  simp only [CoreWorker.waitPass]
  rw [if_neg h]

/-- Structural invariants preserved by the memory phase of a Wait pass starting
with an empty ready set. -/
theorem memPhase_invariants (mem : Store) (n : Nat) (m p : List ObjectID)
    (hmn : m.Nodup) (hpn : p.Nodup) (hdisj : ∀ x ∈ m, x ∉ p) :
    (CoreWorker.waitPassMemPhase mem n ⟨m, p, []⟩).memIds.Nodup ∧
    (CoreWorker.waitPassMemPhase mem n ⟨m, p, []⟩).plasmaIds.Nodup ∧
    (CoreWorker.waitPassMemPhase mem n ⟨m, p, []⟩).ready.Nodup ∧
    (∀ x ∈ (CoreWorker.waitPassMemPhase mem n ⟨m, p, []⟩).memIds, x ∈ m) ∧
    (∀ x ∈ (CoreWorker.waitPassMemPhase mem n ⟨m, p, []⟩).plasmaIds,
      x ∈ p ∨ x ∈ m) ∧
    (∀ x ∈ (CoreWorker.waitPassMemPhase mem n ⟨m, p, []⟩).ready, x ∈ m) ∧
    (∀ x ∈ (CoreWorker.waitPassMemPhase mem n ⟨m, p, []⟩).memIds,
      x ∉ (CoreWorker.waitPassMemPhase mem n ⟨m, p, []⟩).plasmaIds) ∧
    (∀ x ∈ (CoreWorker.waitPassMemPhase mem n ⟨m, p, []⟩).ready,
      x ∉ (CoreWorker.waitPassMemPhase mem n ⟨m, p, []⟩).plasmaIds) := by
  by_cases hm : m = []
  · subst hm
    rw [memPhase_empty]
    refine ⟨List.nodup_nil, hpn, List.nodup_nil, ?_, ?_, ?_, ?_, ?_⟩
    · intro x hx; exact absurd hx (List.not_mem_nil x)
    · intro x hx; exact Or.inl hx
    · intro x hx; exact absurd hx (List.not_mem_nil x)
    · intro x hx; exact absurd hx (List.not_mem_nil x)
    · intro x hx; exact absurd hx (List.not_mem_nil x)
  · rw [memPhase_cons mem n ⟨m, p, []⟩ hm]
    have hwsub : ∀ x ∈ CoreWorker.memWaitReady mem n ⟨m, p, []⟩, x ∈ m := by
      intro x hx
      unfold CoreWorker.memWaitReady at hx
      rcases storeWait_subset x hx with h | h
      · exact absurd h (List.not_mem_nil x)
      · exact h
    have hwnodup : (CoreWorker.memWaitReady mem n ⟨m, p, []⟩).Nodup := by
      unfold CoreWorker.memWaitReady
      exact storeWait_nodup List.nodup_nil hmn
    refine ⟨retry_memIds_nodup hmn, retry_plasmaIds_nodup hmn hpn hdisj,
      retry_ready_nodup hwnodup, ?_, ?_, ?_, ?_, ?_⟩
    · intro x hx
      exact (retry_mem_memIds.mp hx).1
    · intro x hx
      rcases retry_mem_plasmaIds.mp hx with h | h
      · exact Or.inl h
      · exact Or.inr h.1
    · intro x hx
      exact hwsub x (retry_mem_ready.mp hx).1
    · intro x hx hxp
      obtain ⟨hxm, hnot⟩ := retry_mem_memIds.mp hx
      rcases retry_mem_plasmaIds.mp hxp with h | h
      · exact hdisj x hxm h
      · exact hnot ⟨h.2.1, h.2.2⟩
    · intro x hx hxp
      obtain ⟨hxw, hnot⟩ := retry_mem_ready.mp hx
      rcases retry_mem_plasmaIds.mp hxp with h | h
      · exact hdisj x (hwsub x hxw) h
      · exact hnot ⟨h.1, h.2.2⟩

/-- The memory phase preserves the total number of harvestable candidates, under
the promotion coherence assumption. -/
theorem memPhase_avail (mem : Store) (ph : ObjectID → Bool) (n : Nat)
    (m p : List ObjectID) (hmn : m.Nodup)
    (hcoh : ∀ x ∈ m, memHasPlasmaMarker mem x = true → ph x = true) :
    ((CoreWorker.waitPassMemPhase mem n ⟨m, p, []⟩).memIds.filter fun i =>
        (mem i).isSome).length
      + ((CoreWorker.waitPassMemPhase mem n ⟨m, p, []⟩).plasmaIds.filter ph).length
      = (m.filter fun i => (mem i).isSome).length + (p.filter ph).length := by
  by_cases hm : m = []
  · subst hm
    rw [memPhase_empty]
  · rw [memPhase_cons' mem n m p [] hm]
    have hwsub : ∀ x ∈ CoreWorker.memWaitReady mem n ⟨m, p, []⟩, x ∈ m := by
      intro x hx
      unfold CoreWorker.memWaitReady at hx
      rcases storeWait_subset x hx with h | h
      · exact absurd h (List.not_mem_nil x)
      · exact h
    have hwnodup : (CoreWorker.memWaitReady mem n ⟨m, p, []⟩).Nodup := by
      unfold CoreWorker.memWaitReady
      exact storeWait_nodup List.nodup_nil hmn
    have h1 : ((RetryObjectInPlasmaErrors mem
          ⟨m, p, CoreWorker.memWaitReady mem n ⟨m, p, []⟩⟩).memIds.filter fun i =>
            (mem i).isSome).length
        + ((CoreWorker.memWaitReady mem n ⟨m, p, []⟩).filter fun i =>
            memHasPlasmaMarker mem i).length
        = (m.filter fun i => (mem i).isSome).length :=
      retry_memIds_filter_length mem
        ⟨m, p, CoreWorker.memWaitReady mem n ⟨m, p, []⟩⟩ hmn hwnodup hwsub
    have h2 : ((RetryObjectInPlasmaErrors mem
          ⟨m, p, CoreWorker.memWaitReady mem n ⟨m, p, []⟩⟩).plasmaIds.filter ph).length
        = (p.filter ph).length
          + ((CoreWorker.memWaitReady mem n ⟨m, p, []⟩).filter fun i =>
              memHasPlasmaMarker mem i).length :=
      retry_plasma_filter_length mem ph
        ⟨m, p, CoreWorker.memWaitReady mem n ⟨m, p, []⟩⟩ hmn hwnodup hwsub hcoh
    omega

/-- The memory wait of a pass starting with an empty ready set takes the first
requested present candidates. -/
theorem memWaitReady_nil (mem : Store) (n : Nat) (m p : List ObjectID) :
    CoreWorker.memWaitReady mem n ⟨m, p, []⟩
      = ((m.filter fun i => (mem i).isSome)).take (min m.length n) := by
  unfold CoreWorker.memWaitReady
  exact storeWait_nil_ready _ _ _

/-- The memory wait of a pass reports only memory candidates. -/
theorem memWaitReady_nil_subset (mem : Store) (n : Nat) (m p : List ObjectID) :
    ∀ x ∈ CoreWorker.memWaitReady mem n ⟨m, p, []⟩, x ∈ m := by
  intro x hx
  rw [memWaitReady_nil] at hx
  exact (List.mem_filter.mp (List.take_subset _ _ hx)).1

/-- The memory wait of a pass reports a duplicate-free list. -/
theorem memWaitReady_nil_nodup (mem : Store) (n : Nat) (m p : List ObjectID)
    (hmn : m.Nodup) : (CoreWorker.memWaitReady mem n ⟨m, p, []⟩).Nodup := by
  rw [memWaitReady_nil]
  exact (List.take_sublist _ _).nodup (hmn.filter _)

/-- The memory wait of a pass reports min(n, number of present candidates) ids. -/
theorem memWaitReady_nil_length (mem : Store) (n : Nat) (m p : List ObjectID) :
    (CoreWorker.memWaitReady mem n ⟨m, p, []⟩).length
      = min n ((m.filter fun i => (mem i).isSome).length) := by
  rw [memWaitReady_nil, List.length_take]
  have := List.length_filter_le (fun i => (mem i).isSome) m
  omega

/-- The ready set of a pass with no memory candidates: the first requested
present plasma candidates. -/
theorem waitPass_empty_mem (mem : Store) (ph : ObjectID → Bool) (n : Nat)
    (p : List ObjectID) (hn : 0 < n) (hpne : p ≠ []) :
    (CoreWorker.waitPass mem ph n ⟨[], p, []⟩).sets.ready
      = (p.filter ph).take (min p.length n) := by
  have hguard : (CoreWorker.waitPassMemPhase mem n ⟨[], p, []⟩).ready.length < n
      ∧ (CoreWorker.waitPassMemPhase mem n ⟨[], p, []⟩).plasmaIds ≠ [] := by
    rw [memPhase_empty]
    exact ⟨hn, hpne⟩
  rw [waitPass_ready_of_guard mem ph n ⟨[], p, []⟩ hguard, memPhase_empty]
  show storeWait ph p (min p.length (n - 0)) [] = _
  rw [storeWait_nil_ready]
  simp

/-- A pass starting with an empty ready set reports at most n ready ids. -/
theorem waitPass_ready_le (mem : Store) (ph : ObjectID → Bool) (n : Nat)
    (m p : List ObjectID) :
    (CoreWorker.waitPass mem ph n ⟨m, p, []⟩).sets.ready.length ≤ n := by
  have h1 : (CoreWorker.waitPassMemPhase mem n ⟨m, p, []⟩).ready.length ≤ n := by
    by_cases hm : m = []
    · subst hm
      rw [memPhase_empty]
      exact Nat.zero_le n
    · rw [memPhase_cons' mem n m p [] hm]
      have hr : (RetryObjectInPlasmaErrors mem
          ⟨m, p, CoreWorker.memWaitReady mem n ⟨m, p, []⟩⟩).ready.length
          ≤ (CoreWorker.memWaitReady mem n ⟨m, p, []⟩).length := by
        unfold RetryObjectInPlasmaErrors
        exact List.length_filter_le _ _
      have hw := memWaitReady_nil_length mem n m p
      omega
  by_cases hg : (CoreWorker.waitPassMemPhase mem n ⟨m, p, []⟩).ready.length < n
      ∧ (CoreWorker.waitPassMemPhase mem n ⟨m, p, []⟩).plasmaIds ≠ []
  · rw [waitPass_ready_of_guard mem ph n ⟨m, p, []⟩ hg, storeWait_length]
    have := hg.1
    omega
  · rw [waitPass_ready_of_no_guard mem ph n ⟨m, p, []⟩ hg]
    exact h1

/-- A pass starting with an empty ready set harvests at least n ready ids when at
least n of its candidates are available, under promotion coherence. -/
theorem waitPass_ready_ge (mem : Store) (ph : ObjectID → Bool) (n : Nat)
    (m p : List ObjectID) (hn : 1 ≤ n) (hmn : m.Nodup) (hpn : p.Nodup)
    (hdisj : ∀ x ∈ m, x ∉ p)
    (hcoh : ∀ x ∈ m, memHasPlasmaMarker mem x = true → ph x = true)
    (havail : n ≤ (m.filter fun i => (mem i).isSome).length
        + (p.filter ph).length) :
    n ≤ (CoreWorker.waitPass mem ph n ⟨m, p, []⟩).sets.ready.length := by
  by_cases hm : m = []
  · subst hm
    have hR : n ≤ (p.filter ph).length := by simpa using havail
    have hpne : p ≠ [] := by
      intro h
      subst h
      simp at hR
      omega
    rw [waitPass_empty_mem mem ph n p hn hpne, List.length_take]
    have hle := List.length_filter_le ph p
    omega
  · have hSm := memPhase_cons' mem n m p [] hm
    have hwsub := memWaitReady_nil_subset mem n m p
    have hwnodup := memWaitReady_nil_nodup mem n m p hmn
    have hwlen := memWaitReady_nil_length mem n m p
    have hrl : (RetryObjectInPlasmaErrors mem
          ⟨m, p, CoreWorker.memWaitReady mem n ⟨m, p, []⟩⟩).ready.length
        + ((CoreWorker.memWaitReady mem n ⟨m, p, []⟩).filter fun i =>
            memHasPlasmaMarker mem i).length
        = (CoreWorker.memWaitReady mem n ⟨m, p, []⟩).length :=
      retry_ready_length mem ⟨m, p, CoreWorker.memWaitReady mem n ⟨m, p, []⟩⟩
        hmn hwnodup hwsub
    have hpf : ((RetryObjectInPlasmaErrors mem
          ⟨m, p, CoreWorker.memWaitReady mem n ⟨m, p, []⟩⟩).plasmaIds.filter ph).length
        = (p.filter ph).length
          + ((CoreWorker.memWaitReady mem n ⟨m, p, []⟩).filter fun i =>
              memHasPlasmaMarker mem i).length :=
      retry_plasma_filter_length mem ph
        ⟨m, p, CoreWorker.memWaitReady mem n ⟨m, p, []⟩⟩ hmn hwnodup hwsub hcoh
    have hdisjr : ∀ x ∈ (RetryObjectInPlasmaErrors mem
          ⟨m, p, CoreWorker.memWaitReady mem n ⟨m, p, []⟩⟩).ready,
        x ∉ (RetryObjectInPlasmaErrors mem
          ⟨m, p, CoreWorker.memWaitReady mem n ⟨m, p, []⟩⟩).plasmaIds := by
      intro x hxr hxp
      obtain ⟨hxw, hnot⟩ := retry_mem_ready.mp hxr
      rcases retry_mem_plasmaIds.mp hxp with h | h
      · exact hdisj x (hwsub x hxw) h
      · exact hnot ⟨h.1, h.2.2⟩
    by_cases hg : (CoreWorker.waitPassMemPhase mem n ⟨m, p, []⟩).ready.length < n
        ∧ (CoreWorker.waitPassMemPhase mem n ⟨m, p, []⟩).plasmaIds ≠ []
    · rw [waitPass_ready_of_guard mem ph n ⟨m, p, []⟩ hg]
      rw [hSm] at hg ⊢
      rw [storeWait_length]
      have hfc : ((RetryObjectInPlasmaErrors mem
            ⟨m, p, CoreWorker.memWaitReady mem n ⟨m, p, []⟩⟩).plasmaIds.filter fun i =>
              ph i && !(decide (i ∈ (RetryObjectInPlasmaErrors mem
                ⟨m, p, CoreWorker.memWaitReady mem n ⟨m, p, []⟩⟩).ready)))
          = (RetryObjectInPlasmaErrors mem
            ⟨m, p, CoreWorker.memWaitReady mem n ⟨m, p, []⟩⟩).plasmaIds.filter ph := by
        apply List.filter_congr
        intro x hx
        have hnr : x ∉ (RetryObjectInPlasmaErrors mem
            ⟨m, p, CoreWorker.memWaitReady mem n ⟨m, p, []⟩⟩).ready :=
          fun hr => hdisjr x hr hx
        rw [decide_eq_false hnr]
        simp
      rw [hfc, hpf]
      have hple : ((RetryObjectInPlasmaErrors mem
            ⟨m, p, CoreWorker.memWaitReady mem n ⟨m, p, []⟩⟩).plasmaIds.filter ph).length
          ≤ (RetryObjectInPlasmaErrors mem
            ⟨m, p, CoreWorker.memWaitReady mem n ⟨m, p, []⟩⟩).plasmaIds.length :=
        List.length_filter_le _ _
      rw [hpf] at hple
      have hg1 := hg.1
      omega
    · rw [waitPass_ready_of_no_guard mem ph n ⟨m, p, []⟩ hg]
      rw [hSm] at hg ⊢
      by_cases hlt : (RetryObjectInPlasmaErrors mem
          ⟨m, p, CoreWorker.memWaitReady mem n ⟨m, p, []⟩⟩).ready.length < n
      · have hpe : (RetryObjectInPlasmaErrors mem
            ⟨m, p, CoreWorker.memWaitReady mem n ⟨m, p, []⟩⟩).plasmaIds = [] := by
          by_contra hne2
          exact hg ⟨hlt, hne2⟩
        have hp0 : p = [] := by
          rw [List.eq_nil_iff_forall_not_mem]
          intro x hx
          have hmem : x ∈ (RetryObjectInPlasmaErrors mem
              ⟨m, p, CoreWorker.memWaitReady mem n ⟨m, p, []⟩⟩).plasmaIds :=
            retry_mem_plasmaIds.mpr (Or.inl hx)
          rw [hpe] at hmem
          exact absurd hmem (List.not_mem_nil x)
        have hj0 : ((CoreWorker.memWaitReady mem n ⟨m, p, []⟩).filter fun i =>
            memHasPlasmaMarker mem i).length = 0 := by
          have hnil : ((CoreWorker.memWaitReady mem n ⟨m, p, []⟩).filter fun i =>
              memHasPlasmaMarker mem i) = [] := by
            rw [List.eq_nil_iff_forall_not_mem]
            intro x hx
            obtain ⟨hxw, hxm⟩ := List.mem_filter.mp hx
            have hmem : x ∈ (RetryObjectInPlasmaErrors mem
                ⟨m, p, CoreWorker.memWaitReady mem n ⟨m, p, []⟩⟩).plasmaIds :=
              retry_mem_plasmaIds.mpr (Or.inr ⟨hwsub x hxw, hxw, hxm⟩)
            rw [hpe] at hmem
            exact absurd hmem (List.not_mem_nil x)
          rw [hnil]
          rfl
        have hR0 : (p.filter ph).length = 0 := by
          rw [hp0]
          rfl
        omega
      · omega

/-- Ready ids of a pass are duplicate-free and drawn from its candidates. -/
theorem waitPass_ready_props (mem : Store) (ph : ObjectID → Bool) (n : Nat)
    (m p : List ObjectID) (hmn : m.Nodup) (hpn : p.Nodup)
    (hdisj : ∀ x ∈ m, x ∉ p) :
    (CoreWorker.waitPass mem ph n ⟨m, p, []⟩).sets.ready.Nodup ∧
    (∀ x ∈ (CoreWorker.waitPass mem ph n ⟨m, p, []⟩).sets.ready, x ∈ m ∨ x ∈ p) := by
  obtain ⟨_, h2, h3, _, h5, h6, _, _⟩ := memPhase_invariants mem n m p hmn hpn hdisj
  by_cases hg : (CoreWorker.waitPassMemPhase mem n ⟨m, p, []⟩).ready.length < n
      ∧ (CoreWorker.waitPassMemPhase mem n ⟨m, p, []⟩).plasmaIds ≠ []
  · rw [waitPass_ready_of_guard mem ph n ⟨m, p, []⟩ hg]
    constructor
    · exact storeWait_nodup h3 h2
    · intro x hx
      rcases storeWait_subset x hx with h | h
      · exact Or.inl (h6 x h)
      · rcases h5 x h with h' | h'
        · exact Or.inr h'
        · exact Or.inl h'
  · rw [waitPass_ready_of_no_guard mem ph n ⟨m, p, []⟩ hg]
    exact ⟨h3, fun x hx => Or.inl (h6 x hx)⟩

/-- Availability accounting: with duplicate-free input ids and promotion
coherence, the per-store present counts of the grouped candidates add up to the
number of available input ids. -/
theorem avail_count_groups (mem : Store) (ph : ObjectID → Bool)
    (ids : List ObjectID) (hnd : ids.Nodup)
    (hcoh : ∀ i ∈ ids, memHasPlasmaMarker mem i = true → ph i = true) :
    ((memoryGroup ids).filter fun i => (mem i).isSome).length
      + ((plasmaGroup ids).filter ph).length
      = (ids.filter fun i => objAvailable mem ph i).length := by
  have hmg : memoryGroup ids = ids.filter fun i => i.IsDirectCallType :=
    List.dedup_eq_self.mpr (hnd.filter _)
  have hpg : plasmaGroup ids = ids.filter fun i => !i.IsDirectCallType :=
    List.dedup_eq_self.mpr (hnd.filter _)
  rw [hmg, hpg, List.filter_filter, List.filter_filter]
  have hpart := length_filter_partitionB (fun i => i.IsDirectCallType)
      ((ids.filter fun i => objAvailable mem ph i))
  rw [List.filter_filter, List.filter_filter] at hpart
  have e1 : (ids.filter fun a => (mem a).isSome && a.IsDirectCallType)
      = ids.filter fun a => a.IsDirectCallType && objAvailable mem ph a := by
    apply List.filter_congr
    intro x hx
    cases hd : x.IsDirectCallType
    · simp
    · simp only [Bool.and_true, Bool.true_and]
      unfold objAvailable
      rw [hd]
      cases hv : mem x with
      | none => simp
      | some v =>
        cases hvv : v.IsInPlasmaError
        · simp [hvv]
        · have hmark : memHasPlasmaMarker mem x = true := by
            unfold memHasPlasmaMarker
            rw [hv]
            exact hvv
          rw [hcoh x hx hmark]
          simp [hvv]
  have e2 : (ids.filter fun a => ph a && !a.IsDirectCallType)
      = ids.filter fun a => (!a.IsDirectCallType) && objAvailable mem ph a := by
    apply List.filter_congr
    intro x hx
    cases hd : x.IsDirectCallType
    · simp only [Bool.not_false, Bool.and_true, Bool.true_and]
      unfold objAvailable
      rw [hd]
      simp
    · simp
  rw [e1, e2]
  omega

/-- Counting the true entries of the membership map. -/
theorem count_true_map_decide (ids ready : List ObjectID) :
    ((ids.map fun i => decide (i ∈ ready)).count true)
      = (ids.filter fun i => decide (i ∈ ready)).length := by
  induction ids with
  | nil => rfl
  | cons a t ih =>
    by_cases h : a ∈ ready <;>
      simp [List.count_cons, List.filter_cons, h, ih]

/-- The membership count is bounded by the size of the ready set. -/
theorem count_le_ready_length (ids ready : List ObjectID) (hids : ids.Nodup) :
    (ids.filter fun i => decide (i ∈ ready)).length ≤ ready.length := by
  apply nodup_length_le_of_subset (hids.filter _)
  intro x hx
  have := (List.mem_filter.mp hx).2
  rwa [decide_eq_true_eq] at this

/-- The membership count equals the size of a duplicate-free ready set drawn
from the ids. -/
theorem count_eq_ready_length (ids ready : List ObjectID) (hids : ids.Nodup)
    (hr : ready.Nodup) (hsub : ∀ x ∈ ready, x ∈ ids) :
    (ids.filter fun i => decide (i ∈ ready)).length = ready.length := by
  apply nodup_length_eq_of_mem_iff (hids.filter _) hr
  intro x
  rw [List.mem_filter, decide_eq_true_eq]
  exact ⟨fun h => h.2, fun h => ⟨hsub x h, h⟩⟩

/-- C6: in a Wait pass with memory candidates, every memory candidate reported
ready by the memory-store wait whose stored value is the OBJECT_IN_PLASMA
sentinel is removed from the memory candidate set and from the ready set and
added to the plasma candidate set; the plasma store, when consulted in that
pass, is consulted exactly on this post-reclassification candidate set. -/
theorem c6_wait_reclassifies_inplasma (mem : Store) (plasmaHas : ObjectID → Bool)
    (n : Nat) (s : WaitSets) (i : ObjectID) (hne : s.memIds ≠ [])
    (hin : i ∈ s.memIds) (hready : i ∈ CoreWorker.memWaitReady mem n s)
    (hmark : memHasPlasmaMarker mem i = true) :
    i ∉ (CoreWorker.waitPassMemPhase mem n s).memIds ∧
    i ∉ (CoreWorker.waitPassMemPhase mem n s).ready ∧
    i ∈ (CoreWorker.waitPassMemPhase mem n s).plasmaIds ∧
    ((CoreWorker.waitPass mem plasmaHas n s).plasmaQueried = [] ∨
      (CoreWorker.waitPass mem plasmaHas n s).plasmaQueried
        = (CoreWorker.waitPassMemPhase mem n s).plasmaIds) := by
  have hphase := memPhase_cons mem n s hne
  refine ⟨?_, ?_, ?_, ?_⟩
  · rw [hphase]
    intro hc
    obtain ⟨_, hnot⟩ := retry_mem_memIds.mp hc
    exact hnot ⟨hready, hmark⟩
  · rw [hphase]
    intro hc
    obtain ⟨_, hnot⟩ := retry_mem_ready.mp hc
    exact hnot ⟨hin, hmark⟩
  · rw [hphase]
    exact retry_mem_plasmaIds.mpr (Or.inr ⟨hin, hready, hmark⟩)
  · by_cases hg : (CoreWorker.waitPassMemPhase mem n s).ready.length < n
        ∧ (CoreWorker.waitPassMemPhase mem n s).plasmaIds ≠ []
    · right
      simp only [CoreWorker.waitPass]
      rw [if_pos hg]
    · left
      simp only [CoreWorker.waitPass]
      rw [if_neg hg]

/-- C6 witness: a single sentinel-bearing DIRECT candidate reported ready is
reclassified into the plasma candidates. -/
theorem c6_wait_reclassifies_inplasma_witness :
    sampleDirectA ∉ (CoreWorker.waitPassMemPhase sampleMemOk 1
      ⟨[sampleDirectA], [], []⟩).memIds ∧
    sampleDirectA ∉ (CoreWorker.waitPassMemPhase sampleMemOk 1
      ⟨[sampleDirectA], [], []⟩).ready ∧
    sampleDirectA ∈ (CoreWorker.waitPassMemPhase sampleMemOk 1
      ⟨[sampleDirectA], [], []⟩).plasmaIds ∧
    ((CoreWorker.waitPass sampleMemOk samplePlasmaHas 1
        ⟨[sampleDirectA], [], []⟩).plasmaQueried = [] ∨
      (CoreWorker.waitPass sampleMemOk samplePlasmaHas 1
        ⟨[sampleDirectA], [], []⟩).plasmaQueried
        = (CoreWorker.waitPassMemPhase sampleMemOk 1
          ⟨[sampleDirectA], [], []⟩).plasmaIds) :=
  c6_wait_reclassifies_inplasma sampleMemOk samplePlasmaHas 1
    ⟨[sampleDirectA], [], []⟩ sampleDirectA (by decide) (by decide) (by decide)
    (by decide)

/-- C5: for every successful Wait call, at most num_objects of the returned
entries are true; and, under the promotion coherence assumption on the external
stores, whenever at least num_objects of the input ids have their objects
available during the call, at least num_objects entries are true. -/
theorem c5_wait_true_count (mem : Store) (plasmaHas : ObjectID → Bool)
    (ids : List ObjectID) (numObjects timeoutMs : Int)
    (hok : (CoreWorker.Wait mem plasmaHas ids numObjects timeoutMs).status
      = Status.ok)
    (hcoh : ∀ i ∈ ids, memHasPlasmaMarker mem i = true → plasmaHas i = true) :
    ((CoreWorker.Wait mem plasmaHas ids numObjects timeoutMs).results.count true
        ≤ numObjects.toNat) ∧
    (numObjects.toNat ≤ (ids.filter fun i => objAvailable mem plasmaHas i).length →
      numObjects.toNat
        ≤ (CoreWorker.Wait mem plasmaHas ids numObjects timeoutMs).results.count
            true) := by
  simp only [CoreWorker.Wait] at hok
  by_cases hr : numObjects ≤ 0 ∨ numObjects > (ids.length : Int)
  · rw [if_pos hr] at hok
    exact Status.noConfusion hok
  · rw [if_neg hr] at hok
    by_cases hdup : (plasmaGroup ids).length + (memoryGroup ids).length ≠ ids.length
    · rw [if_pos hdup] at hok
      exact Status.noConfusion hok
    · have hlen : (plasmaGroup ids).length + (memoryGroup ids).length
          = ids.length := not_ne_iff.mp hdup
      have hnd : ids.Nodup := (group_lengths_eq_iff_nodup ids).mp hlen
      obtain ⟨hr1, hr2⟩ := not_or.mp hr
      have hn1 : 1 ≤ numObjects.toNat := by omega
      have hmn : (memoryGroup ids).Nodup := List.nodup_dedup _
      have hpn : (plasmaGroup ids).Nodup := List.nodup_dedup _
      have hdisj : ∀ x ∈ memoryGroup ids, x ∉ plasmaGroup ids := by
        intro x hx hp
        have h1 := (mem_memoryGroup.mp hx).2
        have h2 := (mem_plasmaGroup.mp hp).2
        rw [h1] at h2
        exact Bool.noConfusion h2
      have hmsub : ∀ x ∈ memoryGroup ids, x ∈ ids :=
        fun x hx => (mem_memoryGroup.mp hx).1
      have hpsub : ∀ x ∈ plasmaGroup ids, x ∈ ids :=
        fun x hx => (mem_plasmaGroup.mp hx).1
      have hcohm : ∀ x ∈ memoryGroup ids,
          memHasPlasmaMarker mem x = true → plasmaHas x = true :=
        fun x hx => hcoh x (hmsub x hx)
      have havailg := avail_count_groups mem plasmaHas ids hnd hcoh
      by_cases hb : timeoutMs ≠ 0
          ∧ (CoreWorker.waitPass mem plasmaHas numObjects.toNat
              ⟨memoryGroup ids, plasmaGroup ids, []⟩).sets.ready.length
            < numObjects.toNat
      · -- pass B decides the output
        have hresB : (CoreWorker.Wait mem plasmaHas ids numObjects
              timeoutMs).results
            = ids.map fun i => decide (i ∈ (CoreWorker.waitPass mem plasmaHas
                numObjects.toNat
                ⟨(CoreWorker.waitPass mem plasmaHas numObjects.toNat
                    ⟨memoryGroup ids, plasmaGroup ids, []⟩).sets.memIds,
                  (CoreWorker.waitPass mem plasmaHas numObjects.toNat
                    ⟨memoryGroup ids, plasmaGroup ids, []⟩).sets.plasmaIds,
                  []⟩).sets.ready) := by
          simp only [CoreWorker.Wait]
          rw [if_neg hr, if_neg hdup, if_pos hb]
        have hAm := waitPass_sets_memIds mem plasmaHas numObjects.toNat
          ⟨memoryGroup ids, plasmaGroup ids, []⟩
        have hAp := waitPass_sets_plasmaIds mem plasmaHas numObjects.toNat
          ⟨memoryGroup ids, plasmaGroup ids, []⟩
        obtain ⟨hP1, hP2, _, hP4, hP5, _, hP7, _⟩ :=
          memPhase_invariants mem numObjects.toNat (memoryGroup ids)
            (plasmaGroup ids) hmn hpn hdisj
        have hm'n : (CoreWorker.waitPass mem plasmaHas numObjects.toNat
            ⟨memoryGroup ids, plasmaGroup ids, []⟩).sets.memIds.Nodup := by
          rw [hAm]; exact hP1
        have hp'n : (CoreWorker.waitPass mem plasmaHas numObjects.toNat
            ⟨memoryGroup ids, plasmaGroup ids, []⟩).sets.plasmaIds.Nodup := by
          rw [hAp]; exact hP2
        have hdisj' : ∀ x ∈ (CoreWorker.waitPass mem plasmaHas numObjects.toNat
            ⟨memoryGroup ids, plasmaGroup ids, []⟩).sets.memIds,
            x ∉ (CoreWorker.waitPass mem plasmaHas numObjects.toNat
              ⟨memoryGroup ids, plasmaGroup ids, []⟩).sets.plasmaIds := by
          rw [hAm, hAp]; exact hP7
        have hm'sub : ∀ x ∈ (CoreWorker.waitPass mem plasmaHas numObjects.toNat
            ⟨memoryGroup ids, plasmaGroup ids, []⟩).sets.memIds, x ∈ ids := by
          rw [hAm]
          intro x hx
          exact hmsub x (hP4 x hx)
        have hp'sub : ∀ x ∈ (CoreWorker.waitPass mem plasmaHas numObjects.toNat
            ⟨memoryGroup ids, plasmaGroup ids, []⟩).sets.plasmaIds, x ∈ ids := by
          rw [hAp]
          intro x hx
          rcases hP5 x hx with h | h
          · exact hpsub x h
          · exact hmsub x h
        have hcoh' : ∀ x ∈ (CoreWorker.waitPass mem plasmaHas numObjects.toNat
            ⟨memoryGroup ids, plasmaGroup ids, []⟩).sets.memIds,
            memHasPlasmaMarker mem x = true → plasmaHas x = true :=
          fun x hx => hcoh x (hm'sub x hx)
        have havailA := memPhase_avail mem plasmaHas numObjects.toNat
          (memoryGroup ids) (plasmaGroup ids) hmn hcohm
        have hle : (CoreWorker.waitPass mem plasmaHas numObjects.toNat
            ⟨(CoreWorker.waitPass mem plasmaHas numObjects.toNat
                ⟨memoryGroup ids, plasmaGroup ids, []⟩).sets.memIds,
              (CoreWorker.waitPass mem plasmaHas numObjects.toNat
                ⟨memoryGroup ids, plasmaGroup ids, []⟩).sets.plasmaIds,
              []⟩).sets.ready.length ≤ numObjects.toNat :=
          waitPass_ready_le mem plasmaHas numObjects.toNat _ _
        obtain ⟨hRn, hRsub⟩ := waitPass_ready_props mem plasmaHas numObjects.toNat
          (CoreWorker.waitPass mem plasmaHas numObjects.toNat
            ⟨memoryGroup ids, plasmaGroup ids, []⟩).sets.memIds
          (CoreWorker.waitPass mem plasmaHas numObjects.toNat
            ⟨memoryGroup ids, plasmaGroup ids, []⟩).sets.plasmaIds hm'n hp'n hdisj'
        have hRids : ∀ x ∈ (CoreWorker.waitPass mem plasmaHas numObjects.toNat
            ⟨(CoreWorker.waitPass mem plasmaHas numObjects.toNat
                ⟨memoryGroup ids, plasmaGroup ids, []⟩).sets.memIds,
              (CoreWorker.waitPass mem plasmaHas numObjects.toNat
                ⟨memoryGroup ids, plasmaGroup ids, []⟩).sets.plasmaIds,
              []⟩).sets.ready, x ∈ ids := by
          intro x hx
          rcases hRsub x hx with h | h
          · exact hm'sub x h
          · exact hp'sub x h
        constructor
        · rw [hresB, count_true_map_decide]
          exact le_trans (count_le_ready_length ids _ hnd) hle
        · intro hav
          have havail' : numObjects.toNat
              ≤ ((CoreWorker.waitPass mem plasmaHas numObjects.toNat
                  ⟨memoryGroup ids, plasmaGroup ids, []⟩).sets.memIds.filter
                    fun i => (mem i).isSome).length
                + ((CoreWorker.waitPass mem plasmaHas numObjects.toNat
                  ⟨memoryGroup ids, plasmaGroup ids, []⟩).sets.plasmaIds.filter
                    plasmaHas).length := by
            rw [hAm, hAp]
            omega
          have hge := waitPass_ready_ge mem plasmaHas numObjects.toNat
            (CoreWorker.waitPass mem plasmaHas numObjects.toNat
              ⟨memoryGroup ids, plasmaGroup ids, []⟩).sets.memIds
            (CoreWorker.waitPass mem plasmaHas numObjects.toNat
              ⟨memoryGroup ids, plasmaGroup ids, []⟩).sets.plasmaIds
            hn1 hm'n hp'n hdisj' hcoh' havail'
          rw [hresB, count_true_map_decide]
          have heq := count_eq_ready_length ids _ hnd hRn hRids
          omega
      · -- pass A decides the output
        have hresA : (CoreWorker.Wait mem plasmaHas ids numObjects
              timeoutMs).results
            = ids.map fun i => decide (i ∈ (CoreWorker.waitPass mem plasmaHas
                numObjects.toNat
                ⟨memoryGroup ids, plasmaGroup ids, []⟩).sets.ready) := by
          simp only [CoreWorker.Wait]
          rw [if_neg hr, if_neg hdup, if_neg hb]
        have hle : (CoreWorker.waitPass mem plasmaHas numObjects.toNat
            ⟨memoryGroup ids, plasmaGroup ids, []⟩).sets.ready.length
            ≤ numObjects.toNat :=
          waitPass_ready_le mem plasmaHas numObjects.toNat _ _
        obtain ⟨hRn, hRsub⟩ := waitPass_ready_props mem plasmaHas numObjects.toNat
          (memoryGroup ids) (plasmaGroup ids) hmn hpn hdisj
        have hRids : ∀ x ∈ (CoreWorker.waitPass mem plasmaHas numObjects.toNat
            ⟨memoryGroup ids, plasmaGroup ids, []⟩).sets.ready, x ∈ ids := by
          intro x hx
          rcases hRsub x hx with h | h
          · exact hmsub x h
          · exact hpsub x h
        constructor
        · rw [hresA, count_true_map_decide]
          exact le_trans (count_le_ready_length ids _ hnd) hle
        · intro hav
          have havail' : numObjects.toNat
              ≤ ((memoryGroup ids).filter fun i => (mem i).isSome).length
                + ((plasmaGroup ids).filter plasmaHas).length := by
            omega
          have hge := waitPass_ready_ge mem plasmaHas numObjects.toNat
            (memoryGroup ids) (plasmaGroup ids) hn1 hmn hpn hdisj hcohm havail'
          rw [hresA, count_true_map_decide]
          have heq := count_eq_ready_length ids _ hnd hRn hRids
          omega

/-- C5 witness: mixed-transport Wait for two of three ids, all of which are
available (the sentinel id via its promoted plasma copy). -/
theorem c5_wait_true_count_witness :
    ((CoreWorker.Wait sampleMemOk samplePlasmaHas
        [sampleDirectA, sampleDirectB, sampleRayletA] 2 100).results.count true
      ≤ (2 : Int).toNat) ∧
    ((2 : Int).toNat
        ≤ ([sampleDirectA, sampleDirectB, sampleRayletA].filter fun i =>
            objAvailable sampleMemOk samplePlasmaHas i).length →
      (2 : Int).toNat
        ≤ (CoreWorker.Wait sampleMemOk samplePlasmaHas
            [sampleDirectA, sampleDirectB, sampleRayletA] 2 100).results.count
            true) :=
  c5_wait_true_count sampleMemOk samplePlasmaHas
    [sampleDirectA, sampleDirectB, sampleRayletA] 2 100 (by decide) (by decide)
